import Mathlib

/-!
Verification of the noctua scraper-development pipeline core
(`src/pipeline/runner.ts`, `src/pipeline/state.ts`, `src/pipeline/stages`).

The TypeScript sources are shallowly embedded: pure helpers become Lean
functions on `String` / `List Char`, JavaScript regex tests are expanded to
explicit scanners over character lists, fallible operations (`JSON.parse`)
return `Option`, and the `runPipeline` driver becomes a deterministic function
of an explicit environment that scripts the outcome of every external call
(LLM invocations, file-existence checks, abort polls).  Event emission and
`saveState` calls are recorded in a trace.
-/

namespace Noctua

/-! ## Character and string helpers (JS semantics, ASCII fragment) -/

/-- Character code as a natural number. -/
def code (c : Char) : Nat := c.toNat

/-- Matches the character class `[a-z0-9]` (used by `slugify`'s regex). -/
def isLowerAlnum (c : Char) : Bool :=
  decide ((97 ≤ code c ∧ code c ≤ 122) ∨ (48 ≤ code c ∧ code c ≤ 57))

/-- ASCII fragment of JavaScript `String.prototype.toLowerCase`:
uppercase A–Z maps to a–z, all other characters are fixed. -/
def jsLower (c : Char) : Char :=
  if 65 ≤ code c ∧ code c ≤ 90 then Char.ofNat (code c + 32) else c

/-- ASCII fragment of the JS regex class `\s` (space, tab, LF, CR, VT, FF). -/
def jsWs (c : Char) : Bool :=
  c == ' ' || c == '\t' || c == '\n' || c == '\r' || code c == 11 || code c == 12

/-- JS regex word character `\w` = `[A-Za-z0-9_]` (for `\b` boundaries). -/
def wordChar (c : Char) : Bool :=
  isLowerAlnum c || decide (65 ≤ code c ∧ code c ≤ 90) || c == '_'

/-- Substring test on character lists (JS `String.prototype.includes`). -/
def containsL (pat : List Char) : List Char → Bool
  | [] => pat.isPrefixOf []
  | c :: t => pat.isPrefixOf (c :: t) || containsL pat t

/-- JS `haystack.includes(needle)`. -/
def containsSub (haystack needle : String) : Bool :=
  containsL needle.data haystack.data

/-- Case-insensitive substring test (models a case-insensitive `/…/i` regex
test whose pattern is a plain literal). -/
def containsSubI (haystack needle : String) : Bool :=
  containsL (needle.data.map jsLower) (haystack.data.map jsLower)

/-- JS `String.prototype.startsWith`. -/
def jsStartsWith (s pre : String) : Bool :=
  pre.data.isPrefixOf s.data

/-- JS `String.prototype.trim` (ASCII whitespace fragment). -/
def jsTrimL (l : List Char) : List Char :=
  ((l.dropWhile jsWs).reverse.dropWhile jsWs).reverse

/-- JS `s.trim()` on strings. -/
def jsTrim (s : String) : String := String.mk (jsTrimL s.data)

/-- JS `s.slice(0, n)` for `0 ≤ n`. -/
def jsTake (n : Nat) (s : String) : String := String.mk (s.data.take n)

/-! ## slugify (`src/pipeline/state.ts`)

```ts
export function slugify(text: string): string {
  return text
    .toLowerCase()
    .replace(/[^a-z0-9]+/g, "-")
    .replace(/^-+|-+$/g, "")
    .slice(0, 50);
}
```
-/

/-- `replace(/[^a-z0-9]+/g, "-")`: every maximal run of characters outside
`[a-z0-9]` is replaced by a single dash.  The boolean argument records
whether the previous character was part of such a run. -/
def collapseAux : Bool → List Char → List Char
  | _, [] => []
  | inRun, c :: cs =>
    if isLowerAlnum c then c :: collapseAux false cs
    else if inRun then collapseAux true cs
    else '-' :: collapseAux true cs

/-- `replace(/^-+|-+$/g, "")`: strip leading and trailing dash runs. -/
def trimDashes (l : List Char) : List Char :=
  ((l.dropWhile (fun c => c == '-')).reverse.dropWhile (fun c => c == '-')).reverse

/-- `slugify` on character lists: lowercase, collapse non-alphanumerics to
single dashes, strip boundary dashes, truncate to 50 characters. -/
def slugifyL (l : List Char) : List Char :=
  (trimDashes (collapseAux false (l.map jsLower))).take 50

/-- `slugify` from `src/pipeline/state.ts`. -/
def slugify (s : String) : String := String.mk (slugifyL s.data)

/-! ## JSON values and `JSON.parse`

`JSON.parse` is a platform builtin; it is modelled by an executable
recursive-descent parser over the JSON grammar.  Number tokens are kept as
their validated lexemes (no numeric semantics of a JSON number is needed by
any property proved here).  The `\uXXXX` escape is decoded to the scalar
value when it is not a surrogate half and to U+FFFD otherwise (surrogate-pair
recombination is not modelled). -/

inductive Json where
  | null
  | bool (b : Bool)
  | num (lex : String)
  | str (s : String)
  | arr (elems : List Json)
  | obj (fields : List (String × Json))

/-- JSON insignificant whitespace. -/
def jsonWsChar (c : Char) : Bool :=
  c == ' ' || c == '\t' || c == '\n' || c == '\r'

def skipWs (l : List Char) : List Char := l.dropWhile jsonWsChar

/-- Consume an exact literal. -/
def eatLit : List Char → List Char → Option (List Char)
  | [], l => some l
  | _, [] => none
  | p :: ps, c :: cs => if c == p then eatLit ps cs else none

def hexVal (c : Char) : Option Nat :=
  if 48 ≤ code c ∧ code c ≤ 57 then some (code c - 48)
  else if 97 ≤ code c ∧ code c ≤ 102 then some (code c - 87)
  else if 65 ≤ code c ∧ code c ≤ 70 then some (code c - 55)
  else none

def isDigit (c : Char) : Bool := decide (48 ≤ code c ∧ code c ≤ 57)

/-- Parse the body of a JSON string (after the opening quote), returning the
decoded characters and the rest after the closing quote. -/
def parseStrBody : Nat → List Char → Option (List Char × List Char)
  | 0, _ => none
  | _, [] => none
  | fuel + 1, c :: cs =>
    if c == '"' then some ([], cs)
    else if c == '\\' then
      match cs with
      | [] => none
      | e :: cs' =>
        let dec : Option (Char × List Char) :=
          if e == '"' then some ('"', cs')
          else if e == '\\' then some ('\\', cs')
          else if e == '/' then some ('/', cs')
          else if e == 'b' then some (Char.ofNat 8, cs')
          else if e == 'f' then some (Char.ofNat 12, cs')
          else if e == 'n' then some ('\n', cs')
          else if e == 'r' then some ('\r', cs')
          else if e == 't' then some ('\t', cs')
          else if e == 'u' then
            match cs' with
            | h1 :: h2 :: h3 :: h4 :: cs'' =>
              match hexVal h1, hexVal h2, hexVal h3, hexVal h4 with
              | some a, some b, some c3, some d =>
                let n := ((a * 16 + b) * 16 + c3) * 16 + d
                let ch := if 0xd800 ≤ n ∧ n ≤ 0xdfff then Char.ofNat 0xfffd else Char.ofNat n
                some (ch, cs'')
              | _, _, _, _ => none
            | _ => none
          else none
        match dec with
        | none => none
        | some (ch, rest) =>
          match parseStrBody fuel rest with
          | none => none
          | some (tail, rest') => some (ch :: tail, rest')
    else if code c < 32 then none
    else
      match parseStrBody fuel cs with
      | none => none
      | some (tail, rest') => some (c :: tail, rest')

/-- Parse a JSON number lexeme `-?(0|[1-9][0-9]*)(\.[0-9]+)?([eE][+-]?[0-9]+)?`
at the head of the input, returning the lexeme and the rest. -/
def parseNumLex (l : List Char) : Option (List Char × List Char) :=
  let (sign, l1) := match l with
    | '-' :: t => (['-'], t)
    | _ => (([] : List Char), l)
  match l1 with
  | [] => none
  | c :: _ =>
    if ¬ isDigit c then none
    else
      let intPart := l1.takeWhile isDigit
      let l2 := l1.dropWhile isDigit
      -- leading-zero rule: "0" alone, or a first digit 1-9
      if intPart.length > 1 ∧ intPart.headD '0' == '0' then none
      else
        let (frac, l3) : List Char × List Char :=
          match l2 with
          | '.' :: t =>
            match t with
            | d :: _ =>
              if isDigit d then ('.' :: t.takeWhile isDigit, t.dropWhile isDigit)
              else ([], '.' :: t)
            | [] => ([], '.' :: t)
          | _ => ([], l2)
        if frac.isEmpty && (match l2 with | '.' :: _ => true | _ => false) then none
        else
          let (ex, l4) : List Char × List Char :=
            match l3 with
            | e :: t =>
              if e == 'e' || e == 'E' then
                let (es, t1) := match t with
                  | '+' :: t' => (['+'], t')
                  | '-' :: t' => (['-'], t')
                  | _ => (([] : List Char), t)
                match t1 with
                | d :: _ =>
                  if isDigit d then (e :: (es ++ t1.takeWhile isDigit), t1.dropWhile isDigit)
                  else ([], e :: t)
                | [] => ([], e :: t)
              else ([], l3)
            | [] => ([], l3)
          if (match l3 with | e :: _ => (e == 'e' || e == 'E') && ex.isEmpty | _ => false) then none
          else some (sign ++ intPart ++ frac ++ ex, l4)

mutual

def parseVal : Nat → List Char → Option (Json × List Char)
  | 0, _ => none
  | fuel + 1, l =>
    match skipWs l with
    | [] => none
    | 'n' :: t => (eatLit ['u', 'l', 'l'] t).map (fun r => (Json.null, r))
    | 't' :: t => (eatLit ['r', 'u', 'e'] t).map (fun r => (Json.bool true, r))
    | 'f' :: t => (eatLit ['a', 'l', 's', 'e'] t).map (fun r => (Json.bool false, r))
    | '"' :: t =>
      (parseStrBody (t.length + 1) t).map (fun (cs, r) => (Json.str (String.mk cs), r))
    | '[' :: t =>
      (match skipWs t with
       | ']' :: r => some (Json.arr [], r)
       | _ => (parseItems fuel t).map (fun (xs, r) => (Json.arr xs, r)))
    | '{' :: t =>
      (match skipWs t with
       | '}' :: r => some (Json.obj [], r)
       | _ => (parseFields fuel t).map (fun (fs, r) => (Json.obj fs, r)))
    | l' => (parseNumLex l').map (fun (lex, r) => (Json.num (String.mk lex), r))

/-- Comma-separated array items, ending at `]`. -/
def parseItems : Nat → List Char → Option (List Json × List Char)
  | 0, _ => none
  | fuel + 1, l =>
    match parseVal fuel l with
    | none => none
    | some (v, r) =>
      match skipWs r with
      | ',' :: r' =>
        match parseItems fuel r' with
        | none => none
        | some (xs, r'') => some (v :: xs, r'')
      | ']' :: r' => some ([v], r')
      | _ => none

/-- Comma-separated object members, ending at `}`. -/
def parseFields : Nat → List Char → Option (List (String × Json) × List Char)
  | 0, _ => none
  | fuel + 1, l =>
    match skipWs l with
    | '"' :: t =>
      match parseStrBody (t.length + 1) t with
      | none => none
      | some (k, r) =>
        match skipWs r with
        | ':' :: r' =>
          match parseVal fuel r' with
          | none => none
          | some (v, r'') =>
            match skipWs r'' with
            | ',' :: r3 =>
              match parseFields fuel r3 with
              | none => none
              | some (fs, r4) => some ((String.mk k, v) :: fs, r4)
            | '}' :: r3 => some ([(String.mk k, v)], r3)
            | _ => none
        | _ => none
    | _ => none

end

/-- `JSON.parse`: parse a complete JSON document (no trailing garbage);
`none` models a thrown `SyntaxError`.  The fuel `2·|s| + 4` dominates the
recursion depth (each array/object level and each element consumes at least
one input character). -/
def jsonParse (s : String) : Option Json :=
  match parseVal (2 * s.length + 4) s.data with
  | none => none
  | some (j, rest) => if (skipWs rest).isEmpty then some j else none

/-! ## Report schemas (`src/pipeline/state.ts`)

The wire forms (`ReconReportOutput`, `TestReportOutput`) use `null` where the
internal forms use absent/`undefined`; both embed to `Option`, so the record
shapes coincide except where the wire form stores JSON-stringified values
(`sampleData`, `sampleRecords`) or stringified entries (`fieldCoverage`). -/

inductive SiteType where
  | static_html | spa | api_first | hybrid | unknown
deriving DecidableEq, Repr

inductive PagePurpose where
  | search | listing | detail | login | other
deriving DecidableEq, Repr

inductive PaginationKind where
  | next_link | url_param | infinite_scroll | load_more | none
deriving DecidableEq, Repr

inductive Strategy where
  | form_search | listing | api_direct | browser_only
deriving DecidableEq, Repr

def strategyStr : Strategy → String
  | .form_search => "form_search"
  | .listing => "listing"
  | .api_direct => "api_direct"
  | .browser_only => "browser_only"

structure FormFieldOption where
  value : String
  text : String
deriving DecidableEq, Repr

structure FormField where
  name : Option String
  selector : Option String
  fieldType : String
  required : Bool
  options : Option (List FormFieldOption)
deriving DecidableEq, Repr

structure DataElement where
  name : String
  selector : String
  sampleValue : Option String
deriving DecidableEq, Repr

structure Pagination where
  kind : PaginationKind
  selector : Option String
  paramName : Option String
deriving DecidableEq, Repr

structure ReconPage where
  url : String
  purpose : PagePurpose
  formFields : Option (List FormField)
  dataElements : Option (List DataElement)
  pagination : Option Pagination
deriving DecidableEq, Repr

structure ApiEndpoint where
  url : String
  method : String
  contentType : Option String
  responseShape : Option String
deriving DecidableEq, Repr

structure AntiBot where
  hasCaptcha : Bool
  hasCloudflare : Bool
  hasRateLimit : Bool
  requiresAuth : Bool
deriving DecidableEq, Repr

/-- Wire form: `ReconReportOutput` (Azure-strict schema; nullable instead of
optional, `sampleData` entries are JSON strings). -/
structure ReconReportOutput where
  url : String
  siteName : String
  siteType : SiteType
  pages : List ReconPage
  apiEndpoints : Option (List ApiEndpoint)
  antiBot : AntiBot
  sampleData : Option (List String)
  suggestedStrategy : Strategy

/-- Internal form: `ReconReport` (`sampleData` entries are parsed records). -/
structure ReconReport where
  url : String
  siteName : String
  siteType : SiteType
  pages : List ReconPage
  apiEndpoints : Option (List ApiEndpoint)
  antiBot : AntiBot
  sampleData : Option (List Json)
  suggestedStrategy : Strategy

structure SchemaErr where
  path : Option String
  message : String
deriving DecidableEq, Repr

/-- Wire form: `TestReportOutput` (`sampleRecords` are JSON strings,
`fieldCoverage` is a list of `"field:percent"` entries). -/
structure TestReportOutput where
  success : Bool
  exitCode : Int
  timedOut : Bool
  recordCount : Int
  schemaErrors : List SchemaErr
  sampleRecords : List String
  fieldCoverage : List String
  stdout : String
  stderr : String
  durationMs : Int

/-- Internal form: `TestReport`. -/
structure TestReport where
  success : Bool
  exitCode : Int
  timedOut : Bool
  recordCount : Int
  schemaErrors : List SchemaErr
  sampleRecords : List Json
  fieldCoverage : List (String × Int)
  stdout : String
  stderr : String
  durationMs : Int

/-! ## Wire → internal converters (`src/pipeline/runner.ts`) -/

/-- `n2u`: replace `null` with `undefined` — the identity on the `Option`
embedding, kept to mirror the source. -/
def n2u {α : Type} (v : Option α) : Option α := v

/-- `try { return JSON.parse(s); } catch { return { raw: s }; }` -/
def parseOrRaw (s : String) : Json :=
  match jsonParse s with
  | some v => v
  | none => Json.obj [("raw", Json.str s)]

/-- `reconOutputToReport` from `src/pipeline/runner.ts`. -/
def reconOutputToReport (output : ReconReportOutput) : ReconReport :=
  { url := output.url
    siteName := output.siteName
    siteType := output.siteType
    pages := output.pages.map (fun p =>
      { url := p.url
        purpose := p.purpose
        formFields := n2u (p.formFields.map (fun fs => fs.map (fun f =>
          { f with options := n2u f.options })))
        dataElements := n2u (p.dataElements.map (fun ds => ds.map (fun d =>
          { d with sampleValue := n2u d.sampleValue })))
        pagination := match p.pagination with
          | some pg => some { kind := pg.kind, selector := n2u pg.selector, paramName := n2u pg.paramName }
          | none => none })
    apiEndpoints := n2u (output.apiEndpoints.map (fun es => es.map (fun e =>
      { e with contentType := n2u e.contentType, responseShape := n2u e.responseShape })))
    antiBot := output.antiBot
    sampleData := output.sampleData.map (fun ss => ss.map parseOrRaw)
    suggestedStrategy := output.suggestedStrategy }

/-- JavaScript `Number(v)` restricted to optionally-signed decimal integer
lexemes (after `\s` trimming); `""` evaluates to `0`, anything else that is
not such a lexeme to NaN (`none`).  The program's `fieldCoverage` domain is
integer percentages, so fractional/hex/scientific notations are not
modelled. -/
def jsNumberInt (s : String) : Option Int :=
  match jsTrimL s.data with
  | [] => some 0
  | l =>
    let (sign, ds) : Int × List Char := match l with
      | '-' :: t => (-1, t)
      | '+' :: t => (1, t)
      | t => (1, t)
    if ds.isEmpty ∨ ¬ ds.all isDigit then none
    else some (sign * (ds.foldl (fun acc c => acc * 10 + (code c - 48)) (0 : Nat) : Nat))

/-- JS `String.prototype.split` with a one-character separator; the first
argument accumulates the current piece in reverse. -/
def splitAux (sep : Char) (cur : List Char) : List Char → List String
  | [] => [String.mk cur.reverse]
  | c :: cs =>
    if c == sep then String.mk cur.reverse :: splitAux sep [] cs
    else splitAux sep (c :: cur) cs

/-- `entry.split(":")`. -/
def splitColon (entry : String) : List String := splitAux ':' [] entry.data

/-- One `fieldCoverage` entry:
`const [key, val] = entry.split(":"); return [key, Number(val) || 0];`
(`Number(val) || 0` collapses both `NaN` and `0` — and a missing `val` — to
`0`). -/
def covEntry (entry : String) : String × Int :=
  let parts := splitColon entry
  let key := parts.headD ""
  let val := parts[1]?
  (key, match val with
        | Option.none => 0
        | some v => match jsNumberInt v with
          | Option.none => 0
          | some n => if n = 0 then 0 else n)

/-- `Object.fromEntries`: later entries with the same key overwrite earlier
ones, the key keeps its first position. -/
def jsFromEntries (l : List (String × Int)) : List (String × Int) :=
  l.foldl (fun acc kv =>
    if acc.any (fun p => p.1 == kv.1)
    then acc.map (fun p => if p.1 == kv.1 then (p.1, kv.2) else p)
    else acc ++ [kv]) []

/-- `testOutputToReport` from `src/pipeline/runner.ts`. -/
def testOutputToReport (output : TestReportOutput) : TestReport :=
  { success := output.success
    exitCode := output.exitCode
    timedOut := output.timedOut
    recordCount := output.recordCount
    schemaErrors := output.schemaErrors.map (fun e => { path := n2u e.path, message := e.message })
    sampleRecords := output.sampleRecords.map parseOrRaw
    fieldCoverage := jsFromEntries (output.fieldCoverage.map covEntry)
    stdout := output.stdout
    stderr := output.stderr
    durationMs := output.durationMs }

/-! ## Zod validation of the wire recon report
(`ReconReportOutputSchema.safeParse`, used by the synthesize fallback path).
Unknown object keys are stripped (Zod default); missing or mistyped required
keys fail; `nullable` fields accept JSON `null`.  Issue messages are rendered
in a simplified `path: message` form (only their non-emptiness matters to any
property proved here). -/

/-- Object member lookup with JSON.parse duplicate-key semantics (last key
wins). -/
def jGet (j : Json) (k : String) : Option Json :=
  match j with
  | .obj fs => (fs.reverse.find? (fun f => f.1 == k)).map (fun f => f.2)
  | _ => Option.none

def decStr (path : String) : Json → Except String String
  | .str s => .ok s
  | _ => .error (path ++ ": Expected string")

def decBool (path : String) : Json → Except String Bool
  | .bool b => .ok b
  | _ => .error (path ++ ": Expected boolean")

def decNullable {α : Type} (d : Json → Except String α) : Json → Except String (Option α)
  | .null => .ok Option.none
  | j => (d j).map some

def decArr {α : Type} (path : String) (d : Json → Except String α) :
    Json → Except String (List α)
  | .arr xs => xs.mapM d
  | _ => .error (path ++ ": Expected array")

def decField {α : Type} (j : Json) (k : String) (d : Json → Except String α) :
    Except String α :=
  match jGet j k with
  | Option.none => .error (k ++ ": Required")
  | some v => d v

def decSiteType (j : Json) : Except String SiteType :=
  match j with
  | .str "static_html" => .ok .static_html
  | .str "spa" => .ok .spa
  | .str "api_first" => .ok .api_first
  | .str "hybrid" => .ok .hybrid
  | .str "unknown" => .ok .unknown
  | _ => .error "siteType: Invalid enum value"

def decPurpose (j : Json) : Except String PagePurpose :=
  match j with
  | .str "search" => .ok .search
  | .str "listing" => .ok .listing
  | .str "detail" => .ok .detail
  | .str "login" => .ok .login
  | .str "other" => .ok .other
  | _ => .error "purpose: Invalid enum value"

def decPagKind (j : Json) : Except String PaginationKind :=
  match j with
  | .str "next_link" => .ok .next_link
  | .str "url_param" => .ok .url_param
  | .str "infinite_scroll" => .ok .infinite_scroll
  | .str "load_more" => .ok .load_more
  | .str "none" => .ok .none
  | _ => .error "pagination.type: Invalid enum value"

def decStrategy (j : Json) : Except String Strategy :=
  match j with
  | .str "form_search" => .ok .form_search
  | .str "listing" => .ok .listing
  | .str "api_direct" => .ok .api_direct
  | .str "browser_only" => .ok .browser_only
  | _ => .error "suggestedStrategy: Invalid enum value"

def decFormFieldOption (j : Json) : Except String FormFieldOption := do
  let v ← decField j "value" (decStr "value")
  let t ← decField j "text" (decStr "text")
  .ok { value := v, text := t }

def decFormField (j : Json) : Except String FormField := do
  let n ← decField j "name" (decNullable (decStr "name"))
  let sel ← decField j "selector" (decNullable (decStr "selector"))
  let ty ← decField j "type" (decStr "type")
  let req ← decField j "required" (decBool "required")
  let opts ← decField j "options" (decNullable (decArr "options" decFormFieldOption))
  .ok { name := n, selector := sel, fieldType := ty, required := req, options := opts }

def decDataElement (j : Json) : Except String DataElement := do
  let n ← decField j "name" (decStr "name")
  let sel ← decField j "selector" (decStr "selector")
  let sv ← decField j "sampleValue" (decNullable (decStr "sampleValue"))
  .ok { name := n, selector := sel, sampleValue := sv }

def decPagination (j : Json) : Except String Pagination := do
  let k ← decField j "type" decPagKind
  let sel ← decField j "selector" (decNullable (decStr "selector"))
  let pn ← decField j "paramName" (decNullable (decStr "paramName"))
  .ok { kind := k, selector := sel, paramName := pn }

def decPage (j : Json) : Except String ReconPage := do
  let u ← decField j "url" (decStr "url")
  let p ← decField j "purpose" decPurpose
  let ff ← decField j "formFields" (decNullable (decArr "formFields" decFormField))
  let de ← decField j "dataElements" (decNullable (decArr "dataElements" decDataElement))
  let pg ← decField j "pagination" (decNullable decPagination)
  .ok { url := u, purpose := p, formFields := ff, dataElements := de, pagination := pg }

def decApiEndpoint (j : Json) : Except String ApiEndpoint := do
  let u ← decField j "url" (decStr "url")
  let m ← decField j "method" (decStr "method")
  let ct ← decField j "contentType" (decNullable (decStr "contentType"))
  let rs ← decField j "responseShape" (decNullable (decStr "responseShape"))
  .ok { url := u, method := m, contentType := ct, responseShape := rs }

def decAntiBot (j : Json) : Except String AntiBot := do
  let a ← decField j "hasCaptcha" (decBool "hasCaptcha")
  let b ← decField j "hasCloudflare" (decBool "hasCloudflare")
  let c ← decField j "hasRateLimit" (decBool "hasRateLimit")
  let d ← decField j "requiresAuth" (decBool "requiresAuth")
  .ok { hasCaptcha := a, hasCloudflare := b, hasRateLimit := c, requiresAuth := d }

/-- `ReconReportOutputSchema.safeParse` on a parsed JSON value. -/
def decodeReconReportOutput (j : Json) : Except String ReconReportOutput :=
  match j with
  | .obj _ => do
    let u ← decField j "url" (decStr "url")
    let sn ← decField j "siteName" (decStr "siteName")
    let st ← decField j "siteType" decSiteType
    let ps ← decField j "pages" (decArr "pages" decPage)
    let ae ← decField j "apiEndpoints" (decNullable (decArr "apiEndpoints" decApiEndpoint))
    let ab ← decField j "antiBot" decAntiBot
    let sd ← decField j "sampleData" (decNullable (decArr "sampleData" (decStr "sampleData")))
    let ss ← decField j "suggestedStrategy" decStrategy
    .ok { url := u, siteName := sn, siteType := st, pages := ps, apiEndpoints := ae,
          antiBot := ab, sampleData := sd, suggestedStrategy := ss }
  | _ => .error "Expected object"

/-! ## Errors and `isTransientApiError` (`src/pipeline/runner.ts`)

The `stratus-sdk` error classes (`MaxBudgetExceededError`, `OutputParseError`,
`ModelError`) are external; as standard JavaScript error classes they extend
`Error`.  A thrown non-`Error` value is `nonError` and carries its
`String(err)` rendering.  Monetary amounts are in cents so that
`spentUsd.toFixed(2)` is exact. -/

inductive JsError where
  | maxBudget (spentCents budgetCents : Nat) (message : String)
  | outputParse (message : String)
  | modelError (status : Option Int) (message : String)
  | jsError (message : String)
  | nonError (str : String)
deriving DecidableEq, Repr

def isModelErrorInst : JsError → Bool
  | .modelError _ _ => true
  | _ => false

def isErrorInst : JsError → Bool
  | .nonError _ => false
  | _ => true

/-- `err.message` for `Error` instances, `String(err)` otherwise. -/
def errMessage : JsError → String
  | .maxBudget _ _ m => m
  | .outputParse m => m
  | .modelError _ m => m
  | .jsError m => m
  | .nonError s => s

def modelStatus : JsError → Option Int
  | .modelError st _ => st
  | _ => Option.none

/-- `isTransientApiError` from `src/pipeline/runner.ts`.  The source's two
sequential `if (err instanceof …)` blocks with early `return true` are
equivalent to this disjunction (a `ModelError` is also an `Error`, so both
blocks apply to it). -/
def isTransientApiError (err : JsError) : Bool :=
  (isModelErrorInst err &&
    (modelStatus err == some 429
      || containsSub (errMessage err) "rate limit"
      || containsSub (errMessage err) "Too Many Requests"
      || containsSub (errMessage err) "Response failed"
      || containsSub (errMessage err) "network error"))
  || (isErrorInst err &&
    (containsSub (errMessage err) "rate limit"
      || containsSub (errMessage err) "Too Many Requests"
      || containsSub (errMessage err) "timed out"
      || containsSub (errMessage err) "ETIMEDOUT"
      || containsSub (errMessage err) "ECONNRESET"))

/-! ## Bash guardrail (`makeBashGuardrail`, `src/pipeline/runner.ts`)

The five blocked-pattern regexes are expanded into explicit scanners:
a match may start at any position whose preceding character satisfies the
`\b` boundary (start of string or a non-word character — every pattern
begins with a word character). -/

/-- Consume one `\s+` (at least one whitespace character, greedily). -/
def eatWs1 : List Char → Option (List Char)
  | c :: cs => if jsWs c then some (cs.dropWhile jsWs) else Option.none
  | [] => Option.none

/-- `(?:\s|$)` at the current position. -/
def wsOrEnd : List Char → Bool
  | [] => true
  | c :: _ => jsWs c

/-- `\b` after a word character: end of string or a non-word character. -/
def nonWordOrEnd : List Char → Bool
  | [] => true
  | c :: _ => !wordChar c

inductive BlockedPat where
  | rmRoot      -- `\brm\s+-rf\s+\/(?:\s|$)`
  | rmTilde     -- `\brm\s+-rf\s+~(?:\s|$)`
  | rmHomeVar   -- `\brm\s+-rf\s+\$HOME\b`
  | gitPushForce  -- `\bgit\s+push\s+--force\b`
  | gitPushF    -- `\bgit\s+push\s+-f\b`
deriving DecidableEq, Repr

/-- `rm\s+-rf\s+` followed by a pattern-specific tail. -/
def rmRfThen (tail : List Char → Bool) (l : List Char) : Bool :=
  match eatLit ['r', 'm'] l with
  | Option.none => false
  | some l1 =>
    match eatWs1 l1 with
    | Option.none => false
    | some l2 =>
      match eatLit ['-', 'r', 'f'] l2 with
      | Option.none => false
      | some l3 =>
        match eatWs1 l3 with
        | Option.none => false
        | some l4 => tail l4

/-- `git\s+push\s+` followed by a pattern-specific tail. -/
def gitPushThen (tail : List Char → Bool) (l : List Char) : Bool :=
  match eatLit ['g', 'i', 't'] l with
  | Option.none => false
  | some l1 =>
    match eatWs1 l1 with
    | Option.none => false
    | some l2 =>
      match eatLit ['p', 'u', 's', 'h'] l2 with
      | Option.none => false
      | some l3 =>
        match eatWs1 l3 with
        | Option.none => false
        | some l4 => tail l4

/-- Does the pattern match starting exactly at the head of `l`? -/
def patHere : BlockedPat → List Char → Bool
  | .rmRoot, l => rmRfThen (fun t => match eatLit ['/'] t with
      | some r => wsOrEnd r
      | Option.none => false) l
  | .rmTilde, l => rmRfThen (fun t => match eatLit ['~'] t with
      | some r => wsOrEnd r
      | Option.none => false) l
  | .rmHomeVar, l => rmRfThen (fun t => match eatLit ['$', 'H', 'O', 'M', 'E'] t with
      | some r => nonWordOrEnd r
      | Option.none => false) l
  | .gitPushForce, l => gitPushThen (fun t => match eatLit ['-', '-', 'f', 'o', 'r', 'c', 'e'] t with
      | some r => nonWordOrEnd r
      | Option.none => false) l
  | .gitPushF, l => gitPushThen (fun t => match eatLit ['-', 'f'] t with
      | some r => nonWordOrEnd r
      | Option.none => false) l

def boundaryBefore : Option Char → Bool
  | Option.none => true
  | some c => !wordChar c

/-- Scan the command for a match of `p` at any `\b`-boundary position. -/
def scanPat (p : BlockedPat) : Option Char → List Char → Bool
  | _, [] => false
  | prev, c :: cs =>
    (boundaryBefore prev && patHere p (c :: cs)) || scanPat p (some c) cs

/-- `BLOCKED_PATTERNS.some(p => p.test(command))`. -/
def matchesBlocked (cmd : List Char) : Bool :=
  [BlockedPat.rmRoot, BlockedPat.rmTilde, BlockedPat.rmHomeVar,
   BlockedPat.gitPushForce, BlockedPat.gitPushF].any (fun p => scanPat p Option.none cmd)

/-- Maximal whitespace-delimited tokens of the command.  The first argument
accumulates the current token in reverse. -/
def tokensAux : List Char → List Char → List (List Char)
  | cur, [] => if cur.isEmpty then [] else [cur.reverse]
  | cur, c :: cs =>
    if jsWs c then
      if cur.isEmpty then tokensAux [] cs else cur.reverse :: tokensAux [] cs
    else tokensAux (c :: cur) cs

def tokensOf (l : List Char) : List (List Char) := tokensAux [] l

/-- The matches of the global regex `(?:^|\s)(\/[^\s]+)` are exactly (after
`trim()`) the whitespace-delimited tokens that begin with `/` and have at
least one further character: `\/` must directly follow start-of-string or
whitespace, and the greedy `[^\s]+` extends to the end of the token. -/
def absPathTokens (cmd : List Char) : List String :=
  ((tokensOf cmd).filter (fun t => t.headD ' ' == '/' && decide (2 ≤ t.length))).map String.mk

/-- The per-path test on line 219 of `runner.ts`:
`path !== "/" && !path.startsWith(workDir) && !path.startsWith("/tmp") && !path.startsWith("/dev/null")`. -/
def badPath (workDir p : String) : Bool :=
  !(p == "/") && !(jsStartsWith p workDir) && !(jsStartsWith p "/tmp") && !(jsStartsWith p "/dev/null")

structure GuardrailResult where
  tripwireTriggered : Bool
  outputInfo : Option String
deriving DecidableEq, Repr

/-- The `execute` function of `makeBashGuardrail(workDir)` applied to
`{ toolName, toolArgs: { command } }` (`command = none` models an absent
`toolArgs.command`, read as `""` by `String(toolArgs.command ?? "")`). -/
def bashGuardrailExecute (workDir toolName : String) (command : Option String) :
    GuardrailResult :=
  if toolName != "bash" then { tripwireTriggered := false, outputInfo := Option.none }
  else
    let cmd := command.getD ""
    if matchesBlocked cmd.data then
      { tripwireTriggered := true
        outputInfo := some ("blocked dangerous command: " ++ jsTake 80 cmd) }
    else
      match (absPathTokens cmd.data).find? (fun p => badPath workDir p) with
      | some p =>
        { tripwireTriggered := true
          outputInfo := some ("blocked path outside workDir: " ++ p) }
      | Option.none => { tripwireTriggered := false, outputInfo := Option.none }

/-! ## Pipeline state, events and trace (`src/pipeline/state.ts`) -/

inductive Stage where
  | recon | schema | codegen | test | repair | harden | done | failed
deriving DecidableEq, Repr

def stageStr : Stage → String
  | .recon => "recon"
  | .schema => "schema"
  | .codegen => "codegen"
  | .test => "test"
  | .repair => "repair"
  | .harden => "harden"
  | .done => "done"
  | .failed => "failed"

/-- `PipelineState`.  `new Date().toISOString()` timestamps are replaced by a
fixed string (wall-clock time is not modelled). -/
structure PState where
  projectName : String
  targetUrl : String
  userIntent : String
  workDir : String
  currentStage : Stage
  reconReport : Option ReconReport
  schemaPath : Option String
  scraperDir : Option String
  testResults : List TestReport
  repairAttempts : Nat
  maxRepairAttempts : Nat
  error : Option String
  startedAt : String
  completedAt : Option String

/-- `PipelineEvent`. -/
inductive PEvent where
  | stage_start (stage : Stage)
  | stage_complete (stage : Stage) (durationMs : Nat) (summary : Option String)
  | stage_error (stage : Stage) (error : String)
  | test_result (report : TestReport) (attempt : Nat)
  | repair_attempt (attempt maxAttempts : Nat)
  | stage_tool_start (stage : Stage) (tool : String)
  | stage_tool_end (stage : Stage) (tool : String) (durationMs : Nat)
  | pipeline_complete (scraperDir : String) (recordCount : Int)
  | pipeline_failed (reason : String) (stage : Stage)

/-- Observable actions of a run: events delivered to `onEvent`, and
`saveState` writes of `state.json` (recorded with the state written). -/
inductive Action where
  | emit (e : PEvent)
  | save (s : PState)

def isoNow : String := "1970-01-01T00:00:00.000Z"

/-- `createInitialState` from `src/pipeline/state.ts`. -/
def createInitialState (projectName targetUrl userIntent workDir : String) : PState :=
  { projectName := projectName
    targetUrl := targetUrl
    userIntent := userIntent
    workDir := workDir
    currentStage := .recon
    reconReport := Option.none
    schemaPath := Option.none
    scraperDir := Option.none
    testResults := []
    repairAttempts := 0
    maxRepairAttempts := 5
    error := Option.none
    startedAt := isoNow
    completedAt := Option.none }

/-! ## Repair diagnosis classification
(`buildRepairPrompt`, `src/pipeline/stages/…`).  Only the error-category
classifier that selects the `<diagnosis type="…">` block is embedded; the
surrounding prompt text does not affect the classification. -/

/-- `lastTest?.schemaErrors?.[0]?.message ?? lastTest?.stderr ?? ""`. -/
def lastErrorOf (s : PState) : String :=
  match s.testResults.getLast? with
  | Option.none => ""
  | some t =>
    match t.schemaErrors.head? with
    | some e => e.message
    | Option.none => t.stderr

/-- The `type` attribute of the diagnosis block chosen by
`buildRepairPrompt`:
module → navigation → selector/timeout → general, tested in that order. -/
def repairDiagnosisType (s : PState) : String :=
  let lastError := lastErrorOf s
  let isTimeoutError := containsSubI lastError "timeout"
  let isModuleError := containsSubI lastError "cannot find module"
  let isSelectorError := isTimeoutError || containsSubI lastError "selector" || containsSubI lastError "locator"
  let isNavigationError := containsSubI lastError "navigation failed" || containsSubI lastError "goto"
  if isModuleError then "module_error"
  else if isNavigationError then "navigation_error"
  else if isSelectorError then "selector_error"
  else "general"

/-! ## The pipeline driver (`runPipeline`, `src/pipeline/runner.ts`)

External nondeterminism is scripted by an `Env`: each LLM invocation site,
file-existence query and abort poll reads its outcome from the environment.
Call sites are numbered per family (`stageCall` 0/1 = SCHEMA attempt/retry,
2/3 = CODEGEN attempt/retry, 4… = REPAIR attempts, then HARDEN;
`fileExists` checks 0/1 = the SCHEMA `checkFiles` calls, 2/3 = CODEGEN's).
Diagnostic file writes (`debug.log`, `findings.txt`, report snapshots) are
not recorded; `saveState` writes are. -/

structure Msg where
  role : String
  content : Option String

structure ExploreRes where
  output : Option String
  messages : List Msg
  numTurns : Option Nat
  finishReason : Option String

structure SynthRes where
  finalOutput : Option ReconReportOutput
  output : Option String
  finishReason : Option String

structure Env where
  explore : Nat → Except JsError ExploreRes
  synth : Nat → Except JsError SynthRes
  stageCall : Nat → Option JsError
  testCall : Nat → Except JsError (Option TestReportOutput)
  fileExists : Nat → String → Bool
  abortedAt : Nat → Bool

/-- The pipeline options that affect control flow (`model`, `onEvent`,
`signal`, `costEstimator` are externalised into `Env` / the trace). -/
structure PipelineOptions where
  baseDir : String
  maxRepairAttempts : Option Nat

/-- The prologue of `runPipeline`: workspace paths, `createInitialState`,
then the option overrides `state.maxRepairAttempts = maxRepairAttempts`
(destructured with default `20`) and `state.scraperDir = scraperDir`. -/
def initRunState (targetUrl userIntent : String) (opts : PipelineOptions) : PState :=
  let projectName := slugify userIntent
  let workDir := opts.baseDir ++ "/.noctua/pipelines/" ++ projectName
  let scraperDir := workDir ++ "/scraper"
  let s := createInitialState projectName targetUrl userIntent workDir
  { s with maxRepairAttempts := opts.maxRepairAttempts.getD 20
           scraperDir := some scraperDir }

/-- `extractFindings` from `src/pipeline/runner.ts`. -/
def extractFindings (messages : List Msg) : String :=
  let parts := messages.filterMap (fun m =>
    match m.content with
    | some c => if c ≠ "" ∧ (m.role = "assistant" ∨ m.role = "tool") then some c else Option.none
    | Option.none => Option.none)
  jsTake 15000 (String.intercalate "\n\n" parts)

/-- Outcome of a phase of the `try` block: early `return state`, an exception
propagating to the `catch`, or fall-through to the next stage. -/
inductive POut where
  | go (s : PState)
  | ret (s : PState)
  | thr (s : PState) (e : JsError)

inductive ExpOut where
  | got (r : ExploreRes)
  | ret (s : PState)
  | thrown (s : PState) (e : JsError)

/-- The Explore retry loop (`maxExploreAttempts = 3`).  A transient error on
an attempt `< 3` retries (the backoff timer is not modelled); any other
error takes the fatal path.  The fuel-exhaustion case mirrors the
post-loop `throw new Error("unreachable…")` guard. -/
def exploreAttempts (env : Env) : Nat → Nat → PState → List Action × ExpOut
  | 0, _, s => ([], .thrown s (JsError.jsError "unreachable: explore loop exited without result"))
  | fuel + 1, attempt, s =>
    match env.explore attempt with
    | .ok r => ([], .got r)
    | .error e =>
      if isTransientApiError e && decide (attempt < 3) then
        exploreAttempts env fuel (attempt + 1) s
      else
        let msg := "recon explore phase threw: " ++ errMessage e
        let s' := { s with currentStage := .failed, error := some msg }
        ([Action.save s', Action.emit (.pipeline_failed msg .recon)], .ret s')

def isOutputParseInst : JsError → Bool
  | .outputParse _ => true
  | _ => false

inductive SynOut where
  | gotReport (s : PState)
  | fellThrough (s : PState) (lastErr : String)
  | thrown (s : PState) (e : JsError)

/-- The Synthesize retry loop (`maxSynthAttempts = 3`).  `OutputParseError`
and transient errors update `lastSynthError` and retry; other exceptions
rethrow.  A result with `finalOutput` stores the converted report and
breaks; otherwise a non-empty raw output goes through the
`JSON.parse` + `safeParse` fallback. -/
def synthAttempts (env : Env) : Nat → Nat → String → PState → List Action × SynOut
  | 0, _, lastErr, s => ([], .fellThrough s lastErr)
  | fuel + 1, attempt, _lastErr, s =>
    match env.synth attempt with
    | .error e =>
      if isOutputParseInst e then
        synthAttempts env fuel (attempt + 1) ("OutputParseError: " ++ errMessage e) s
      else if isTransientApiError e then
        synthAttempts env fuel (attempt + 1) ("Rate limited: " ++ errMessage e) s
      else ([], .thrown s e)
    | .ok r =>
      match r.finalOutput with
      | some ro => ([], .gotReport { s with reconReport := some (reconOutputToReport ro) })
      | Option.none =>
        let raw := r.output.getD ""
        let synthFinish := r.finishReason.getD "unknown"
        if raw.length > 0 then
          match jsonParse raw with
          | some j =>
            match decodeReconReportOutput j with
            | .ok v => ([], .gotReport { s with reconReport := some (reconOutputToReport v) })
            | .error zerr =>
              synthAttempts env fuel (attempt + 1) ("Zod validation: " ++ zerr) s
          | Option.none =>
            synthAttempts env fuel (attempt + 1)
              ("Output " ++ toString raw.length ++ " chars, not valid JSON (finishReason=" ++ synthFinish ++ ")") s
        else
          synthAttempts env fuel (attempt + 1)
            ("Empty output (finishReason=" ++ synthFinish ++ ")") s

/-- Stage 1, RECON: explore → findings extraction and length gate →
synthesize. -/
def reconPhase (env : Env) (s0 : PState) : List Action × POut :=
  let tr0 := [Action.emit (.stage_start .recon)]
  match exploreAttempts env 3 1 s0 with
  | (tr1, .ret s') => (tr0 ++ tr1, .ret s')
  | (tr1, .thrown s' e) => (tr0 ++ tr1, .thr s' e)
  | (tr1, .got r) =>
    let findings := match r.output with
      | some o => if o == "" then extractFindings r.messages else jsTake 15000 o
      | Option.none => extractFindings r.messages
    let findingsLen := (jsTrim findings).length
    if findingsLen < 50 then
      let turns := r.numTurns.getD 0
      let msgCount := r.messages.length
      let outputLen := (r.output.getD "").length
      let finish := r.finishReason.getD "unknown"
      let msg := "recon explore produced no useful findings — " ++ toString turns ++ " turns, "
        ++ toString msgCount ++ " messages, " ++ toString outputLen
        ++ " chars output, finishReason=" ++ finish
      let s' := { s0 with currentStage := .failed, error := some msg }
      (tr0 ++ tr1 ++ [Action.save s', Action.emit (.pipeline_failed msg .recon)], .ret s')
    else
      match synthAttempts env 3 1 "" s0 with
      | (tr2, .thrown s' e) => (tr0 ++ tr1 ++ tr2, .thr s' e)
      | (tr2, .fellThrough s' lastErr) =>
        let msg := "recon synthesize failed after 3 attempts — had " ++ toString findingsLen
          ++ " chars of findings but could not produce valid structured report. Last error: " ++ lastErr
        let s'' := { s' with currentStage := .failed, error := some msg }
        (tr0 ++ tr1 ++ tr2 ++ [Action.save s'', Action.emit (.pipeline_failed msg .recon)], .ret s'')
      | (tr2, .gotReport s') =>
        let s'' := { s' with currentStage := .schema }
        let summary := match s''.reconReport with
          | some rr => "found " ++ toString rr.pages.length ++ " page(s), strategy: "
              ++ strategyStr rr.suggestedStrategy
          | Option.none => ""
        (tr0 ++ tr1 ++ tr2 ++ [Action.save s'', Action.emit (.stage_complete .recon 0 (some summary))],
         .go s'')

/-- `checkFiles(paths)` as the `k`-th file-existence query batch: the first
missing path, or `none`. -/
def checkFilesAt (env : Env) (k : Nat) (paths : List String) : Option String :=
  paths.find? (fun p => !(env.fileExists k p))

/-- A file-writing stage under `runStageWithRetry` followed by the caller's
own `checkFiles` verification (Stages 2 and 3 share this shape).
`promptA`/`promptB` are the stage's two `stageCall` slots, `checkA`/`checkB`
its two `checkFiles` slots. -/
def fileStage (env : Env) (stage : Stage) (nextStage : Stage) (promptA promptB checkA checkB : Nat)
    (paths : List String) (failPrefix : String) (record : PState → PState) (s : PState) :
    List Action × POut :=
  let tr0 := [Action.emit (.stage_start stage)]
  match env.stageCall promptA with
  | some e => (tr0, .thr s e)
  | Option.none =>
    let retryRes : Option JsError :=
      match checkFilesAt env checkA paths with
      | Option.none => Option.none
      | some _ => env.stageCall promptB
    match retryRes with
    | some e => (tr0, .thr s e)
    | Option.none =>
      match checkFilesAt env checkB paths with
      | some m =>
        let msg := failPrefix ++ m
        let s' := { s with currentStage := .failed, error := some msg }
        (tr0 ++ [Action.save s', Action.emit (.pipeline_failed msg stage)], .ret s')
      | Option.none =>
        let s' := { record s with currentStage := nextStage }
        (tr0 ++ [Action.save s', Action.emit (.stage_complete stage 0 Option.none)], .go s')

/-- Stage 2, SCHEMA. -/
def schemaPhase (env : Env) (s : PState) : List Action × POut :=
  let schemaPath := (s.scraperDir.getD "") ++ "/schema.ts"
  fileStage env .schema .codegen 0 1 0 1 [schemaPath]
    "schema stage did not produce " (fun st => { st with schemaPath := some schemaPath }) s

/-- Stage 3, CODEGEN (two expected files, checked in order). -/
def codegenPhase (env : Env) (s : PState) : List Action × POut :=
  let scraperTsPath := (s.scraperDir.getD "") ++ "/scraper.ts"
  let indexTsPath := (s.scraperDir.getD "") ++ "/index.ts"
  fileStage env .codegen .test 2 3 2 3 [scraperTsPath, indexTsPath]
    "codegen stage did not produce " (fun st => st) s

inductive LoopOut where
  | brkOut (s : PState) (ab sp t : Nat)
  | retOut (s : PState)
  | thrOut (s : PState) (e : JsError)

/-- Stages 4–5, the `while (state.repairAttempts <= maxRepairAttempts)`
TEST ⇄ REPAIR loop.  `m` is the destructured `maxRepairAttempts` local;
`ab`/`sp`/`t` are the next abort-poll, stage-call and test-call slots.  Each
full iteration increments `repairAttempts`, so the driver's fuel `m + 1`
is never exhausted; the fuel-0 case returns the loop-exit outcome. -/
def runLoop (env : Env) (m : Nat) : Nat → Nat → Nat → Nat → PState → List Action × LoopOut
  | 0, ab, sp, t, s => ([], .brkOut s ab sp t)
  | fuel + 1, ab, sp, t, s =>
    if s.repairAttempts ≤ m then
      if env.abortedAt ab then ([], .retOut s)
      else
        let tr0 := [Action.emit (.stage_start .test)]
        match env.testCall t with
        | .error e => (tr0, .thrOut s e)
        | .ok fo =>
          let (s1, tr1) : PState × List Action := match fo with
            | some out =>
              let rep := testOutputToReport out
              ({ s with testResults := s.testResults ++ [rep] },
               [Action.emit (.test_result rep (s.repairAttempts + 1))])
            | Option.none => (s, [])
          let passed := match fo with
            | some out => out.success
            | Option.none => false
          let summary :=
            if passed then
              "PASS — " ++ toString ((fo.map (fun o => o.recordCount)).getD 0) ++ " records"
            else match fo with
              | some out => "FAIL — " ++ toString out.recordCount ++ " records, "
                  ++ toString out.schemaErrors.length ++ " errors"
              | Option.none => "FAIL — no test report produced"
          let tr2 := [Action.emit (.stage_complete .test 0 (some summary))]
          if passed then
            let s2 := { s1 with currentStage := .harden }
            (tr0 ++ tr1 ++ tr2 ++ [Action.save s2], .brkOut s2 (ab + 1) sp (t + 1))
          else if s.repairAttempts ≥ m then
            let msg := "max repair attempts (" ++ toString m ++ ") exceeded"
            let s2 := { s1 with currentStage := .failed, error := some msg }
            (tr0 ++ tr1 ++ tr2 ++ [Action.save s2, Action.emit (.pipeline_failed msg .repair)],
             .retOut s2)
          else
            let s2 := { s1 with repairAttempts := s1.repairAttempts + 1 }
            let tr3 := [Action.emit (.repair_attempt s2.repairAttempts m),
                        Action.emit (.stage_start .repair)]
            match env.stageCall sp with
            | some e => (tr0 ++ tr1 ++ tr2 ++ tr3, .thrOut s2 e)
            | Option.none =>
              let s3 := { s2 with currentStage := .test }
              let tr4 := [Action.save s3,
                          Action.emit (.stage_complete .repair 0
                            (some ("repair attempt " ++ toString s2.repairAttempts ++ "/" ++ toString m)))]
              let (trRec, out) := runLoop env m fuel (ab + 1) (sp + 1) (t + 1) s3
              (tr0 ++ tr1 ++ tr2 ++ tr3 ++ tr4 ++ trRec, out)
    else ([], .brkOut s ab sp t)

/-- Stage 6, HARDEN (guarded by `state.currentStage === "harden"`). -/
def hardenPhase (env : Env) (sp : Nat) (s : PState) : List Action × POut :=
  if s.currentStage = .harden then
    let tr0 := [Action.emit (.stage_start .harden)]
    match env.stageCall sp with
    | some e => (tr0, .thr s e)
    | Option.none =>
      let s' := { s with currentStage := .done, completedAt := some isoNow }
      let lastCount := ((s'.testResults.getLast?).map (fun t => t.recordCount)).getD 0
      (tr0 ++ [Action.save s',
               Action.emit (.stage_complete .harden 0 Option.none),
               Action.emit (.pipeline_complete (s'.scraperDir.getD "") lastCount)],
       .go s')
  else ([], .go s)

/-- `$n.toFixed(2)` on an amount given in cents. -/
def fmt2 (cents : Nat) : String :=
  toString (cents / 100) ++ "." ++ (if cents % 100 < 10 then "0" else "") ++ toString (cents % 100)

/-- The top-level `catch` of `runPipeline`.  Budget and parse errors emit
`stage_error` with the current stage; any other exception emits
`pipeline_failed` — whose `stage` field reads `state.currentStage` *after*
it has been set to `failed`.  All three branches persist state afterwards. -/
def catchRun (s : PState) (e : JsError) : List Action × PState :=
  match e with
  | .maxBudget sc bc _ =>
    let msg := "Budget exceeded in stage " ++ stageStr s.currentStage ++ ": spent $"
      ++ fmt2 sc ++ " of $" ++ fmt2 bc ++ " limit"
    let s' := { s with currentStage := .failed, error := some msg }
    ([Action.emit (.stage_error s.currentStage msg), Action.save s'], s')
  | .outputParse pm =>
    let msg := "Structured output parse failed in stage " ++ stageStr s.currentStage ++ ": " ++ pm
    let s' := { s with currentStage := .failed, error := some msg }
    ([Action.emit (.stage_error s.currentStage msg), Action.save s'], s')
  | _ =>
    let msg := errMessage e
    let s' := { s with currentStage := .failed, error := some msg }
    ([Action.emit (.pipeline_failed msg .failed), Action.save s'], s')

/-- `runPipeline(targetUrl, userIntent, options)`: the full driver.  Returns
the trace of observable actions, the final state, and whether the top-level
`catch` ran. -/
def runPipelineModel (env : Env) (targetUrl userIntent : String) (opts : PipelineOptions) :
    List Action × PState × Bool :=
  let s0 := initRunState targetUrl userIntent opts
  match reconPhase env s0 with
  | (tr, POut.ret s) => (tr, s, false)
  | (tr, POut.thr s e) =>
    let (tc, s') := catchRun s e
    (tr ++ tc, s', true)
  | (tr, POut.go s) =>
    if env.abortedAt 0 then (tr, s, false)
    else
      match schemaPhase env s with
      | (tr2, POut.ret s') => (tr ++ tr2, s', false)
      | (tr2, POut.thr s' e) =>
        let (tc, s'') := catchRun s' e
        (tr ++ tr2 ++ tc, s'', true)
      | (tr2, POut.go s') =>
        if env.abortedAt 1 then (tr ++ tr2, s', false)
        else
          match codegenPhase env s' with
          | (tr3, POut.ret s'') => (tr ++ tr2 ++ tr3, s'', false)
          | (tr3, POut.thr s'' e) =>
            let (tc, s3) := catchRun s'' e
            (tr ++ tr2 ++ tr3 ++ tc, s3, true)
          | (tr3, POut.go s'') =>
            if env.abortedAt 2 then (tr ++ tr2 ++ tr3, s'', false)
            else
              let m := opts.maxRepairAttempts.getD 20
              match runLoop env m (m + 1) 3 4 0 s'' with
              | (tr4, .retOut sf) => (tr ++ tr2 ++ tr3 ++ tr4, sf, false)
              | (tr4, .thrOut sf e) =>
                let (tc, sf') := catchRun sf e
                (tr ++ tr2 ++ tr3 ++ tr4 ++ tc, sf', true)
              | (tr4, .brkOut sf ab sp _) =>
                if env.abortedAt ab then (tr ++ tr2 ++ tr3 ++ tr4, sf, false)
                else
                  match hardenPhase env sp sf with
                  | (tr5, POut.thr sf' e) =>
                    let (tc, sf'') := catchRun sf' e
                    (tr ++ tr2 ++ tr3 ++ tr4 ++ tr5 ++ tc, sf'', true)
                  | (tr5, POut.go sfin) => (tr ++ tr2 ++ tr3 ++ tr4 ++ tr5, sfin, false)
                  | (tr5, POut.ret sfin) => (tr ++ tr2 ++ tr3 ++ tr4 ++ tr5, sfin, false)

/-! ## Trace observations -/

/-- Number of `pipeline_failed` events in a trace. -/
def pfCount (tr : List Action) : Nat :=
  tr.countP fun a => match a with
    | .emit (.pipeline_failed _ _) => true
    | _ => false

/-- Is there a `pipeline_failed` event with the given reason? -/
def pfHas (tr : List Action) (reason : String) : Bool :=
  tr.any fun a => match a with
    | .emit (.pipeline_failed r _) => r == reason
    | _ => false

/-- Is there a `stage_error` event with the given message? -/
def seHas (tr : List Action) (msg : String) : Bool :=
  tr.any fun a => match a with
    | .emit (.stage_error _ m) => m == msg
    | _ => false

/-- Number of `stage_start {stage: test}` events = number of TEST
invocations (one is emitted immediately before each TEST `prompt` call). -/
def sstCount (tr : List Action) : Nat :=
  tr.countP fun a => match a with
    | .emit (.stage_start .test) => true
    | _ => false

/-- Number of `test_result` events. -/
def trCount (tr : List Action) : Nat :=
  tr.countP fun a => match a with
    | .emit (.test_result _ _) => true
    | _ => false

/-- The reports carried by `test_result` events, in emission order. -/
def testReportsOf (tr : List Action) : List TestReport :=
  tr.filterMap fun a => match a with
    | .emit (.test_result r _) => some r
    | _ => Option.none

/-- The states written by `saveState`, in order. -/
def savedStates (tr : List Action) : List PState :=
  tr.filterMap fun a => match a with
    | .save s => some s
    | _ => Option.none

def isSaveA : Action → Bool
  | .save _ => true
  | _ => false

/-- Driver-terminal events other than the `stage_complete` that closes TEST:
`stage_complete` for a stage ≠ test, `stage_error`, or `pipeline_failed`. -/
def isTermNT : Action → Bool
  | .emit (.stage_complete st _ _) => !(st == Stage.test)
  | .emit (.stage_error _ _) => true
  | .emit (.pipeline_failed _ _) => true
  | _ => false

/-- Every `isTermNT` action is immediately preceded by a `save` (`prev` is
the action before the list's head, if any). -/
def termPairs (prev : Option Action) : List Action → Bool
  | [] => true
  | b :: rest =>
    (!(isTermNT b) || (match prev with
      | some p => isSaveA p
      | Option.none => false)) && termPairs (some b) rest

/-! ## Concrete runs

Scripted environments for the driver: a fully successful run, a run whose
first TEST invocation yields no validated report, a run that exceeds the
budget during CODEGEN, and a run whose CODEGEN stage throws a plain error
with an empty message. -/

def rro0 : ReconReportOutput :=
  { url := "https://example.com"
    siteName := "Example"
    siteType := SiteType.static_html
    pages := []
    apiEndpoints := Option.none
    antiBot := { hasCaptcha := false, hasCloudflare := false, hasRateLimit := false,
                 requiresAuth := false }
    sampleData := Option.none
    suggestedStrategy := Strategy.listing }

def exOK : ExploreRes :=
  { output := some (String.mk (List.replicate 60 'f'))
    messages := []
    numTurns := some 1
    finishReason := some "stop" }

def tRepPass : TestReportOutput :=
  { success := true, exitCode := 0, timedOut := false, recordCount := 3,
    schemaErrors := [], sampleRecords := [], fieldCoverage := [],
    stdout := "", stderr := "", durationMs := 5 }

def envBase : Env :=
  { explore := fun _ => Except.ok exOK
    synth := fun _ => Except.ok
      { finalOutput := some rro0, output := Option.none, finishReason := Option.none }
    stageCall := fun _ => Option.none
    testCall := fun _ => Except.ok (some tRepPass)
    fileExists := fun _ _ => true
    abortedAt := fun _ => false }

def opts0 : PipelineOptions := { baseDir := "/tmp/base", maxRepairAttempts := Option.none }

def envNoRep : Env :=
  { envBase with testCall := fun n =>
      if n = 0 then Except.ok Option.none else Except.ok (some tRepPass) }

def envBudget : Env :=
  { envBase with stageCall := fun n =>
      if n = 2 then some (JsError.maxBudget 4223 4000 "max budget reached") else Option.none }

def envEmptyErr : Env :=
  { envBase with stageCall := fun n =>
      if n = 2 then some (JsError.jsError "") else Option.none }

/-- The claim's reading of the persistence rule: EVERY terminal stage event
(`stage_complete` of any stage — including TEST — `stage_error`,
`pipeline_failed`) is immediately preceded by a `saveState` write. -/
def isTermClaim : Action → Bool
  | .emit (.stage_complete _ _ _) => true
  | .emit (.stage_error _ _) => true
  | .emit (.pipeline_failed _ _) => true
  | _ => false

def termPairsClaim (prev : Option Action) : List Action → Bool
  | [] => true
  | b :: rest =>
    (!(isTermClaim b) || (match prev with
      | some p => isSaveA p
      | Option.none => false)) && termPairsClaim (some b) rest

/-! ## Claim C5 — bash guardrail -/

/-- The claim's path condition, read literally: the path is not `/`, not
under the workspace, not under `/tmp`, and is not `/dev/null`. -/
def claimPathBad (workDir p : String) : Prop :=
  ¬ (p = "/") ∧ jsStartsWith p workDir = false ∧ jsStartsWith p "/tmp" = false ∧ p ≠ "/dev/null"

/-- The code's path condition: `startsWith` throughout — in particular any
path with `/dev/null` as a *prefix* is allowed. -/
def amendedPathBad (workDir p : String) : Prop :=
  ¬ (p = "/") ∧ jsStartsWith p workDir = false ∧ jsStartsWith p "/tmp" = false ∧
    jsStartsWith p "/dev/null" = false

/-- C5 as stated is false: with the workspace `/tmp/ws`, the command
`cat /dev/null2` references the absolute path `/dev/null2`, which is not
`/`, not under the workspace, not under `/tmp`, and not `/dev/null` — so by
the claim the guardrail should trip — yet it matches no blocked pattern and
`bashGuardrailExecute` does not trip (the code tests
`path.startsWith("/dev/null")`, not equality). -/
theorem C5_counterexample :
    (∃ p ∈ absPathTokens ("cat /dev/null2".data), claimPathBad "/tmp/ws" p) ∧
    matchesBlocked ("cat /dev/null2".data) = false ∧
    (bashGuardrailExecute "/tmp/ws" "bash" (some "cat /dev/null2")).tripwireTriggered = false := by
  refine ⟨⟨"/dev/null2", by decide, by decide, by decide, by decide, by decide⟩, by decide, by decide⟩

theorem badPath_iff (workDir p : String) :
    badPath workDir p = true ↔ amendedPathBad workDir p := by
  simp only [badPath, amendedPathBad, Bool.and_eq_true, Bool.not_eq_true', beq_eq_false_iff_ne,
    ne_eq]
  tauto

theorem guardrail_trip_iff (workDir : String) (command : Option String) :
    (bashGuardrailExecute workDir "bash" command).tripwireTriggered = true ↔
      (matchesBlocked (command.getD "").data = true ∨
        ∃ p ∈ absPathTokens (command.getD "").data, amendedPathBad workDir p) := by
  by_cases hb : matchesBlocked (command.getD "").data = true
  · constructor
    · intro _; exact Or.inl hb
    · intro _; simp [bashGuardrailExecute, hb]
  · rcases hf : (absPathTokens (command.getD "").data).find? (fun p => badPath workDir p) with _ | p
    · have hno : ∀ p ∈ absPathTokens (command.getD "").data, ¬ amendedPathBad workDir p := by
        intro p hp hcontra
        have hnone := List.find?_eq_none.mp hf p hp
        exact hnone ((badPath_iff workDir p).mpr hcontra)
      constructor
      · intro htrip
        have : (bashGuardrailExecute workDir "bash" command).tripwireTriggered = false := by
          simp [bashGuardrailExecute, hb, hf]
        rw [this] at htrip
        exact absurd htrip (by simp)
      · rintro (h | ⟨p, hp, hpb⟩)
        · exact absurd h hb
        · exact absurd hpb (hno p hp)
    · have hmem := List.mem_of_find?_eq_some hf
      have hpb := (badPath_iff workDir p).mp (List.find?_some hf)
      constructor
      · intro _; exact Or.inr ⟨p, hmem, hpb⟩
      · intro _; simp [bashGuardrailExecute, hb, hf]

/-- C5, amended: a non-bash invocation never trips; a bash invocation trips
iff the command matches a blocked pattern or references an absolute-path
token that is not `/` and does not have the workspace, `/tmp`, or
`/dev/null` as a prefix (the code uses `startsWith` for all three checks;
the claim's exact-equality reading of the `/dev/null` exemption is what the
counterexample refutes).  The four boundary examples of the claim hold. -/
theorem C5_guardrail (workDir toolName : String) (command : Option String) :
    (toolName ≠ "bash" → (bashGuardrailExecute workDir toolName command).tripwireTriggered = false) ∧
    ((bashGuardrailExecute workDir "bash" command).tripwireTriggered = true ↔
      (matchesBlocked (command.getD "").data = true ∨
        ∃ p ∈ absPathTokens (command.getD "").data, amendedPathBad workDir p)) ∧
    (bashGuardrailExecute "/tmp/ws" "bash" (some "rm -rf /tmp/foo")).tripwireTriggered = false ∧
    (bashGuardrailExecute "/tmp/ws" "bash" (some "rm -rf /etc")).tripwireTriggered = true ∧
    (bashGuardrailExecute "/tmp/ws" "bash" (some "echo /home/user/outside")).tripwireTriggered = true ∧
    (bashGuardrailExecute "/tmp/ws" "bash" (some "cat /dev/null")).tripwireTriggered = false := by
  refine ⟨?_, guardrail_trip_iff workDir command, by decide, by decide, by decide, by decide⟩
  intro h
  have hb : (toolName != "bash") = true := bne_iff_ne.mpr h
  simp [bashGuardrailExecute, hb]

/-- Witness for C5: at a concrete non-bash tool invocation the guardrail
does not trip. -/
theorem C5_guardrail_witness :
    (bashGuardrailExecute "/tmp/ws" "ls" (some "rm -rf /")).tripwireTriggered = false :=
  (C5_guardrail "/tmp/ws" "ls" (some "rm -rf /")).1 (by decide)

/-! ## Claim C6 — isTransientApiError -/

/-- The claim's flat marker list. -/
def transientMarkers : List String :=
  ["rate limit", "Too Many Requests", "Response failed", "network error",
   "timed out", "ETIMEDOUT", "ECONNRESET"]

/-- Markers the code consults only for `ModelError` instances. -/
def modelMarkers : List String :=
  ["rate limit", "Too Many Requests", "Response failed", "network error"]

/-- Markers the code consults for any `Error` instance. -/
def plainMarkers : List String :=
  ["rate limit", "Too Many Requests", "timed out", "ETIMEDOUT", "ECONNRESET"]

/-- C6 as stated is false: a plain (non-model-layer) `Error` whose message
is `"network error"` contains one of the claim's markers and has no 429
status, yet `isTransientApiError` returns `false` — the
`"Response failed"`/`"network error"` markers are tested only inside the
`instanceof ModelError` block. -/
theorem C6_counterexample :
    isTransientApiError (JsError.jsError "network error") = false ∧
    (modelStatus (JsError.jsError "network error") = some 429 ∨
      ∃ m ∈ transientMarkers,
        containsSub (errMessage (JsError.jsError "network error")) m = true) := by
  refine ⟨by decide, Or.inr ⟨"network error", by decide, by decide⟩⟩

/-- C6, amended: `isTransientApiError` returns true iff the model-layer
status is 429, or the error is a model-layer error whose message contains
one of {rate limit, Too Many Requests, Response failed, network error}, or
the error is an `Error` instance whose message contains one of
{rate limit, Too Many Requests, timed out, ETIMEDOUT, ECONNRESET}. -/
theorem C6_transient_iff (e : JsError) :
    isTransientApiError e = true ↔
      (modelStatus e = some 429 ∨
       (isModelErrorInst e = true ∧ ∃ m ∈ modelMarkers, containsSub (errMessage e) m = true) ∨
       (isErrorInst e = true ∧ ∃ m ∈ plainMarkers, containsSub (errMessage e) m = true)) := by
  cases e <;>
    simp [isTransientApiError, isModelErrorInst, isErrorInst, modelStatus, errMessage,
      modelMarkers, plainMarkers, Bool.or_eq_true, Bool.and_eq_true] <;>
    tauto

/-! ## Claim C9 — repair-prompt diagnosis classification -/

/-- C9: the diagnosis classifier routes a Playwright selector timeout to
`selector_error` and a module-resolution failure to `module_error`,
whatever the rest of the state contains. -/
theorem C9_diagnosis (st : PState) (t : TestReport) (e : SchemaErr)
    (hlast : st.testResults.getLast? = some t)
    (hhead : t.schemaErrors.head? = some e) :
    (e.message = "Timeout 15000ms exceeded waiting for selector '.row'" →
      repairDiagnosisType st = "selector_error") ∧
    (e.message = "Cannot find module './scraper.js'" →
      repairDiagnosisType st = "module_error") := by
  have hle : lastErrorOf st = e.message := by
    simp [lastErrorOf, hlast, hhead]
  constructor <;> intro hm <;> simp [repairDiagnosisType, hle, hm] <;> decide

/-- A state whose single test report failed with the selector-timeout
message of the claim. -/
def c9State : PState :=
  { projectName := "p", targetUrl := "https://x", userIntent := "i", workDir := "/w"
    currentStage := .repair
    reconReport := Option.none
    schemaPath := Option.none
    scraperDir := some "/w/scraper"
    testResults := [{ success := false, exitCode := 1, timedOut := true, recordCount := 0
                      schemaErrors := [{ path := Option.none
                                         message := "Timeout 15000ms exceeded waiting for selector '.row'" }]
                      sampleRecords := [], fieldCoverage := []
                      stdout := "", stderr := "", durationMs := 15000 }]
    repairAttempts := 0, maxRepairAttempts := 5
    error := Option.none, startedAt := isoNow, completedAt := Option.none }

/-- Witness for C9 at a concrete state. -/
theorem C9_diagnosis_witness : repairDiagnosisType c9State = "selector_error" :=
  (C9_diagnosis c9State
    { success := false, exitCode := 1, timedOut := true, recordCount := 0
      schemaErrors := [{ path := Option.none
                         message := "Timeout 15000ms exceeded waiting for selector '.row'" }]
      sampleRecords := [], fieldCoverage := [], stdout := "", stderr := "", durationMs := 15000 }
    { path := Option.none, message := "Timeout 15000ms exceeded waiting for selector '.row'" }
    rfl rfl).1 rfl

/-! ## Claim C10 — totality of the wire → internal converters -/

/-- C10: the converters are total Lean functions (no exception path exists);
structurally, `sampleData`/`sampleRecords` entries are passed through
`parseOrRaw`, which wraps a non-JSON string as `{ raw: s }` and returns the
parsed value otherwise, and a `fieldCoverage` entry whose part after `":"`
is missing or not numeric maps to coverage `0`. -/
theorem C10_converters (ro : ReconReportOutput) (t : TestReportOutput) (s entry : String) :
    (reconOutputToReport ro).pages.length = ro.pages.length ∧
    (reconOutputToReport ro).sampleData = ro.sampleData.map (fun ss => ss.map parseOrRaw) ∧
    (testOutputToReport t).sampleRecords = t.sampleRecords.map parseOrRaw ∧
    (testOutputToReport t).schemaErrors.length = t.schemaErrors.length ∧
    (testOutputToReport t).fieldCoverage = jsFromEntries (t.fieldCoverage.map covEntry) ∧
    (jsonParse s = Option.none → parseOrRaw s = Json.obj [("raw", Json.str s)]) ∧
    (∀ j, jsonParse s = some j → parseOrRaw s = j) ∧
    ((splitColon entry)[1]? = Option.none →
      covEntry entry = ((splitColon entry).headD "", 0)) ∧
    (∀ v, (splitColon entry)[1]? = some v → jsNumberInt v = Option.none →
      (covEntry entry).2 = 0) := by
  refine ⟨by simp [reconOutputToReport], rfl, rfl, by simp [testOutputToReport], rfl,
    ?_, ?_, ?_, ?_⟩
  · intro h; simp [parseOrRaw, h]
  · intro j h; simp [parseOrRaw, h]
  · intro h; simp [covEntry, h]
  · intro v hv hn; simp [covEntry, hv, hn]

/-- A minimal schema-valid wire recon report. -/
def c10ro : ReconReportOutput :=
  { url := "https://x", siteName := "x", siteType := .spa, pages := []
    apiEndpoints := Option.none
    antiBot := { hasCaptcha := false, hasCloudflare := false, hasRateLimit := false, requiresAuth := false }
    sampleData := some ["not json"], suggestedStrategy := .listing }

/-- A minimal schema-valid wire test report. -/
def c10to : TestReportOutput :=
  { success := false, exitCode := 1, timedOut := false, recordCount := 0
    schemaErrors := [], sampleRecords := ["not json"], fieldCoverage := ["title:abc", "title"]
    stdout := "", stderr := "", durationMs := 1 }

/-- Witness for C10: a non-JSON sample entry is wrapped, and a coverage
entry with a non-numeric value part maps to 0. -/
theorem C10_converters_witness :
    parseOrRaw "not json" = Json.obj [("raw", Json.str "not json")] ∧
    (covEntry "title:abc").2 = 0 ∧
    covEntry "title" = ("title", 0) := by
  refine ⟨?_, ?_, ?_⟩
  · exact (C10_converters c10ro c10to "not json" "x").2.2.2.2.2.1 rfl
  · exact (C10_converters c10ro c10to "x" "title:abc").2.2.2.2.2.2.2.2 "abc" rfl rfl
  · exact (C10_converters c10ro c10to "x" "title").2.2.2.2.2.2.2.1 rfl

/-! ## Claim C7 — idempotence of slugify -/

/-- Characters a slug may contain: `[a-z0-9]` or `-`. -/
def isSlugChar (c : Char) : Bool := isLowerAlnum c || c == '-'

/-- No two adjacent dashes. -/
def dashFree (a b : Char) : Prop := ¬(a = '-' ∧ b = '-')

theorem isLowerAlnum_ne_dash {c : Char} (h : isLowerAlnum c = true) : c ≠ '-' := by
  intro he; subst he; exact absurd h (by decide)

theorem jsLower_fix {c : Char} (h : isSlugChar c = true) : jsLower c = c := by
  have h' := h
  simp only [isSlugChar, Bool.or_eq_true, beq_iff_eq] at h'
  rcases h' with h' | rfl
  · unfold isLowerAlnum at h'
    have hp := of_decide_eq_true h'
    unfold jsLower
    rw [if_neg (by omega)]
  · decide

theorem map_jsLower_id {l : List Char} (h : ∀ c ∈ l, isSlugChar c = true) :
    l.map jsLower = l := by
  induction l with
  | nil => rfl
  | cons c t ih =>
    simp only [List.map_cons, jsLower_fix (h c (by simp)),
      ih (fun d hd => h d (by simp [hd])), List.cons.injEq, and_self]

theorem mem_collapseAux {c : Char} :
    ∀ (b : Bool) (l : List Char), c ∈ collapseAux b l → isSlugChar c = true := by
  intro b l
  induction l generalizing b with
  | nil => simp [collapseAux]
  | cons a t ih =>
    intro hm
    by_cases ha : isLowerAlnum a = true
    · simp only [collapseAux, ha, if_true] at hm
      rcases List.mem_cons.mp hm with rfl | hm'
      · simp [isSlugChar, ha]
      · exact ih false hm'
    · cases b with
      | true =>
        simp only [collapseAux, ha, if_false, if_true] at hm
        exact ih true hm
      | false =>
        simp only [collapseAux, ha, if_false] at hm
        rcases List.mem_cons.mp hm with rfl | hm'
        · simp [isSlugChar]
        · exact ih true hm'

theorem collapseAux_true_head :
    ∀ (l : List Char) (c : Char), (collapseAux true l).head? = some c → isLowerAlnum c = true := by
  intro l
  induction l with
  | nil => simp [collapseAux]
  | cons a t ih =>
    intro c hc
    by_cases ha : isLowerAlnum a = true
    · simp only [collapseAux, ha, if_true, List.head?_cons, Option.some.injEq] at hc
      subst hc; exact ha
    · simp only [collapseAux, ha, if_false, if_true] at hc
      exact ih c hc

theorem chain_collapseAux : ∀ (b : Bool) (l : List Char), (collapseAux b l).Chain' dashFree := by
  intro b l
  induction l generalizing b with
  | nil => simp [collapseAux]
  | cons a t ih =>
    by_cases ha : isLowerAlnum a = true
    · simp only [collapseAux, ha, if_true]
      refine List.chain'_cons'.mpr ⟨?_, ih false⟩
      intro y _
      exact fun hcon => (isLowerAlnum_ne_dash ha) hcon.1
    · cases b with
      | true => simpa only [collapseAux, ha, if_false, if_true] using ih true
      | false =>
        simp only [collapseAux, ha, if_false]
        refine List.chain'_cons'.mpr ⟨?_, ih true⟩
        intro y hy
        exact fun hcon => (isLowerAlnum_ne_dash (collapseAux_true_head t y hy)) hcon.2

theorem collapseAux_id :
    ∀ l : List Char, (∀ c ∈ l, isSlugChar c = true) → l.Chain' dashFree →
      collapseAux false l = l ∧ (l.head? ≠ some '-' → collapseAux true l = l) := by
  intro l
  induction l with
  | nil => simp [collapseAux]
  | cons a t ih =>
    intro hch hchain
    have hta : isSlugChar a = true := hch a (by simp)
    obtain ⟨ihf, iht⟩ := ih (fun c hc => hch c (by simp [hc])) hchain.tail
    by_cases ha : isLowerAlnum a = true
    · constructor
      · simp [collapseAux, ha, ihf]
      · intro _; simp [collapseAux, ha, ihf]
    · have ha'' : isLowerAlnum a = true ∨ a = '-' := by
        simpa [isSlugChar] using hta
      have ha' : a = '-' := ha''.resolve_left ha
      have hth : t.head? ≠ some '-' := by
        intro hh
        have hrel := (List.chain'_cons'.mp hchain).1 '-' hh
        exact hrel ⟨ha', rfl⟩
      constructor
      · simp [collapseAux, ha', (by decide : isLowerAlnum '-' = false), iht hth]
      · intro hhead
        exact absurd (by simp [ha'] : (a :: t).head? = some '-') hhead

theorem dropWhile_dash_id {l : List Char} (h : l.head? ≠ some '-') :
    l.dropWhile (fun c => c == '-') = l := by
  cases l with
  | nil => rfl
  | cons a t =>
    have ha : (a == '-') = false := by
      by_cases hb : a = '-'
      · exact absurd (by simp [hb]) h
      · simp [hb]
    simp [List.dropWhile_cons, ha]

theorem trimDashes_id {l : List Char} (h1 : l.head? ≠ some '-') (h2 : l.getLast? ≠ some '-') :
    trimDashes l = l := by
  unfold trimDashes
  rw [dropWhile_dash_id h1, dropWhile_dash_id (by rwa [List.head?_reverse]),
    List.reverse_reverse]

theorem head_dropWhile_dash :
    ∀ l : List Char, (l.dropWhile (fun c => c == '-')).head? ≠ some '-' := by
  intro l
  induction l with
  | nil => simp
  | cons a t ih =>
    by_cases ha : (a == '-') = true
    · simpa [List.dropWhile_cons, ha] using ih
    · have ha' : a ≠ '-' := by simpa using ha
      simp [List.dropWhile_cons, ha, ha']

theorem head_of_prefix {x t : List Char} (h : ((x ++ t).head?) ≠ some '-') :
    x.head? ≠ some '-' := by
  cases x with
  | nil => simp
  | cons a y => simpa using h

/-- `trimDashes l` is a prefix of `l.dropWhile (· == '-')`. -/
theorem trimDashes_prefix (l : List Char) :
    ∃ t, l.dropWhile (fun c => c == '-') = trimDashes l ++ t := by
  obtain ⟨u, hu⟩ := List.dropWhile_suffix (l := (l.dropWhile (fun c => c == '-')).reverse)
    (fun c => c == '-')
  refine ⟨u.reverse, ?_⟩
  have := congrArg List.reverse hu
  simp only [List.reverse_append, List.reverse_reverse] at this
  rw [← this]
  rfl

/-- Structural facts about `slugifyL`: slug characters only, no adjacent
dashes, and no leading dash. -/
theorem slugifyL_facts (l : List Char) :
    (∀ c ∈ slugifyL l, isSlugChar c = true) ∧ (slugifyL l).Chain' dashFree ∧
      (slugifyL l).head? ≠ some '-' := by
  unfold slugifyL
  set x := collapseAux false (l.map jsLower) with hx
  refine ⟨?_, ?_, ?_⟩
  · intro c hc
    have hc1 : c ∈ trimDashes x := List.take_subset 50 _ hc
    have hc2 : c ∈ x := by
      unfold trimDashes at hc1
      have := (List.dropWhile_sublist (l := (x.dropWhile (fun c => c == '-')).reverse)
        (fun c => c == '-')).subset (by simpa using hc1)
      exact (List.dropWhile_sublist (fun c => c == '-')).subset (by simpa using this)
    exact mem_collapseAux false _ hc2
  · have h0 : x.Chain' dashFree := chain_collapseAux false _
    have h1 : (x.dropWhile (fun c => c == '-')).Chain' dashFree :=
      h0.suffix (List.dropWhile_suffix _)
    have h2 : ((x.dropWhile (fun c => c == '-')).reverse).Chain' (flip dashFree) :=
      List.chain'_reverse.mpr h1
    have h3 : (((x.dropWhile (fun c => c == '-')).reverse).dropWhile
        (fun c => c == '-')).Chain' (flip dashFree) :=
      h2.suffix (List.dropWhile_suffix _)
    have h4 : (trimDashes x).Chain' dashFree := by
      unfold trimDashes
      exact List.chain'_reverse.mpr h3
    exact h4.prefix (List.take_prefix 50 _)
  · have h5 : (trimDashes x).head? ≠ some '-' := by
      obtain ⟨t, ht⟩ := trimDashes_prefix x
      exact head_of_prefix (ht ▸ head_dropWhile_dash x)
    obtain ⟨u, hu⟩ : ∃ u, trimDashes x = (trimDashes x).take 50 ++ u :=
      ⟨(trimDashes x).drop 50, (List.take_append_drop 50 _).symm⟩
    exact head_of_prefix (hu ▸ h5)

/-- C7 as stated is false: a 49-character alphanumeric prefix followed by a
space and one letter slugs to 50 characters ending in `-` (the dash is
introduced by the truncation *after* boundary trimming), and a second
application strips that dash. -/
theorem C7_counterexample :
    (slugify (String.mk (List.replicate 49 'a' ++ [' ', 'b']))).length = 50 ∧
    slugify (slugify (String.mk (List.replicate 49 'a' ++ [' ', 'b']))) ≠
      slugify (String.mk (List.replicate 49 'a' ++ [' ', 'b'])) := by
  constructor
  · decide
  · decide

/-- C7, amended: `slugify` is idempotent on every string whose slug does not
end in a dash — in particular whenever the slug is shorter than the
50-character truncation limit; a slug cut at 50 characters may end in `-`,
and re-slugifying then removes exactly that trailing dash. -/
theorem C7_slugify_idempotent (s : String)
    (h : (slugify s).data.getLast? ≠ some '-') :
    slugify (slugify s) = slugify s := by
  obtain ⟨hchars, hchain, hhead⟩ := slugifyL_facts s.data
  show String.mk (slugifyL (String.mk (slugifyL s.data)).data) = String.mk (slugifyL s.data)
  have hdata : (String.mk (slugifyL s.data)).data = slugifyL s.data := rfl
  rw [hdata]
  congr 1
  have hlast : (slugifyL s.data).getLast? ≠ some '-' := h
  unfold slugifyL at hchars hchain hhead hlast ⊢
  set x := collapseAux false (s.data.map jsLower) with hx
  set w := (trimDashes x).take 50 with hw
  have h1 : w.map jsLower = w := map_jsLower_id hchars
  rw [h1]
  have h2 : collapseAux false w = w := (collapseAux_id w hchars hchain).1
  rw [h2]
  have h3 : trimDashes w = w := trimDashes_id hhead hlast
  rw [h3, hw, List.take_take]
  norm_num

/-- Witness for C7 at a concrete input whose slug does not end in a dash. -/
theorem C7_slugify_idempotent_witness :
    slugify (slugify "Hello, World!") = slugify "Hello, World!" :=
  C7_slugify_idempotent "Hello, World!" (by decide)

/-! ## Trace composition lemmas -/

theorem termPairs_weaken {tr : List Action} (h : termPairs Option.none tr = true) :
    ∀ p, termPairs p tr = true := by
  intro p
  cases tr with
  | nil => rfl
  | cons b rest =>
    simp only [termPairs, Bool.and_eq_true, Bool.or_eq_true] at h ⊢
    refine ⟨?_, h.2⟩
    rcases h.1 with h1 | h1
    · exact Or.inl h1
    · exact absurd h1 (by simp)

theorem termPairs_append {tr1 tr2 : List Action} :
    ∀ p, termPairs p tr1 = true → termPairs Option.none tr2 = true →
      termPairs p (tr1 ++ tr2) = true := by
  induction tr1 with
  | nil => intro p _ h2; simpa using termPairs_weaken h2 p
  | cons a t ih =>
    intro p h1 h2
    simp only [termPairs, Bool.and_eq_true] at h1
    simp only [List.cons_append, termPairs, Bool.and_eq_true]
    exact ⟨h1.1, ih (some a) h1.2 h2⟩

theorem pfCount_append (t1 t2 : List Action) :
    pfCount (t1 ++ t2) = pfCount t1 + pfCount t2 := List.countP_append ..

theorem sstCount_append (t1 t2 : List Action) :
    sstCount (t1 ++ t2) = sstCount t1 + sstCount t2 := List.countP_append ..

theorem trCount_append (t1 t2 : List Action) :
    trCount (t1 ++ t2) = trCount t1 + trCount t2 := List.countP_append ..

theorem testReportsOf_append (t1 t2 : List Action) :
    testReportsOf (t1 ++ t2) = testReportsOf t1 ++ testReportsOf t2 :=
  List.filterMap_append ..

theorem savedStates_append (t1 t2 : List Action) :
    savedStates (t1 ++ t2) = savedStates t1 ++ savedStates t2 :=
  List.filterMap_append ..

theorem pfHas_append (t1 t2 : List Action) (m : String) :
    pfHas (t1 ++ t2) m = (pfHas t1 m || pfHas t2 m) := List.any_append ..

theorem seHas_append (t1 t2 : List Action) (m : String) :
    seHas (t1 ++ t2) m = (seHas t1 m || seHas t2 m) := List.any_append ..

/-! ## Per-phase postconditions -/

/-- No TEST activity in the segment. -/
def noTestActs (tr : List Action) : Prop :=
  sstCount tr = 0 ∧ trCount tr = 0 ∧ testReportsOf tr = []

/-- All states saved in the segment keep the input's repair counters and
test results (phases outside the TEST ⇄ REPAIR loop never touch them). -/
def saveFacts (s0 : PState) (tr : List Action) : Prop :=
  ∀ x ∈ savedStates tr, x.repairAttempts = s0.repairAttempts ∧
    x.maxRepairAttempts = s0.maxRepairAttempts ∧ x.testResults = s0.testResults

/-- The phase's output state keeps the input's repair counters and test
results. -/
def stateFacts (s0 s' : PState) : Prop :=
  s'.repairAttempts = s0.repairAttempts ∧ s'.maxRepairAttempts = s0.maxRepairAttempts ∧
    s'.testResults = s0.testResults

theorem exploreAttempts_ok (env : Env) :
    ∀ (fuel attempt : Nat) (s0 : PState) (tr : List Action) (o : ExpOut),
      exploreAttempts env fuel attempt s0 = (tr, o) →
      termPairs Option.none tr = true ∧ noTestActs tr ∧ saveFacts s0 tr ∧
      (match o with
       | .got _ => pfCount tr = 0
       | .ret s' => stateFacts s0 s' ∧ s'.currentStage = .failed ∧ pfCount tr = 1 ∧
           ∃ msg, s'.error = some msg ∧ pfHas tr msg = true
       | .thrown s' _ => stateFacts s0 s' ∧ pfCount tr = 0) := by
  intro fuel
  induction fuel with
  | zero =>
    intro attempt s0 tr o h
    simp only [exploreAttempts] at h
    cases h
    simp [termPairs, noTestActs, sstCount, trCount, testReportsOf, saveFacts, savedStates,
      stateFacts, pfCount]
  | succ fuel ih =>
    intro attempt s0 tr o h
    simp only [exploreAttempts] at h
    split at h
    · cases h
      simp [termPairs, noTestActs, sstCount, trCount, testReportsOf, saveFacts, savedStates,
        pfCount]
    · split at h
      · exact ih _ _ _ _ h
      · cases h
        refine ⟨by simp [termPairs, isTermNT, isSaveA], ?_, ?_, ?_⟩
        · simp [noTestActs, sstCount, trCount, testReportsOf, List.countP, List.countP.go]
        · intro x hx
          simp only [savedStates, List.filterMap] at hx
          simp only [List.mem_cons, List.not_mem_nil, or_false] at hx
          subst hx
          exact ⟨rfl, rfl, rfl⟩
        · refine ⟨⟨rfl, rfl, rfl⟩, rfl, ?_, ?_⟩
          · simp [pfCount, List.countP, List.countP.go]
          · exact ⟨_, rfl, by simp [pfHas]⟩

theorem synthAttempts_ok (env : Env) :
    ∀ (fuel attempt : Nat) (lastErr : String) (s0 : PState) (tr : List Action) (o : SynOut),
      synthAttempts env fuel attempt lastErr s0 = (tr, o) →
      tr = [] ∧
      (match o with
       | .gotReport s' => s'.repairAttempts = s0.repairAttempts ∧
           s'.maxRepairAttempts = s0.maxRepairAttempts ∧ s'.testResults = s0.testResults ∧
           s'.currentStage = s0.currentStage
       | .fellThrough s' _ => s' = s0
       | .thrown s' _ => s' = s0) := by
  intro fuel
  induction fuel with
  | zero =>
    intro attempt lastErr s0 tr o h
    simp only [synthAttempts] at h
    cases h
    simp
  | succ fuel ih =>
    intro attempt lastErr s0 tr o h
    simp only [synthAttempts] at h
    split at h
    · split at h
      · exact ih _ _ _ _ _ h
      · split at h
        · exact ih _ _ _ _ _ h
        · cases h; simp
    · split at h
      · cases h; simp
      · split at h
        · split at h
          · split at h
            · cases h; simp
            · exact ih _ _ _ _ _ h
          · exact ih _ _ _ _ _ h
        · exact ih _ _ _ _ _ h

theorem noTestActs_append {t1 t2 : List Action} (h1 : noTestActs t1) (h2 : noTestActs t2) :
    noTestActs (t1 ++ t2) := by
  obtain ⟨a1, b1, c1⟩ := h1
  obtain ⟨a2, b2, c2⟩ := h2
  refine ⟨?_, ?_, ?_⟩
  · rw [sstCount_append, a1, a2]
  · rw [trCount_append, b1, b2]
  · rw [testReportsOf_append, c1, c2]; rfl

theorem saveFacts_append {s0 : PState} {t1 t2 : List Action} (h1 : saveFacts s0 t1)
    (h2 : saveFacts s0 t2) : saveFacts s0 (t1 ++ t2) := by
  intro x hx
  rw [savedStates_append] at hx
  rcases List.mem_append.mp hx with hx' | hx'
  · exact h1 x hx'
  · exact h2 x hx'

theorem saveFacts_emit {s0 : PState} {e : PEvent} : saveFacts s0 [Action.emit e] := by
  intro x hx
  simp [show savedStates [Action.emit e] = [] from rfl] at hx

theorem saveFacts_nil {s0 : PState} : saveFacts s0 [] := by
  intro x hx
  simp [savedStates] at hx

theorem saveFacts_pair {s0 s' : PState} {e : PEvent}
    (h : s'.repairAttempts = s0.repairAttempts ∧ s'.maxRepairAttempts = s0.maxRepairAttempts ∧
      s'.testResults = s0.testResults) :
    saveFacts s0 [Action.save s', Action.emit e] := by
  intro x hx
  rw [show savedStates [Action.save s', Action.emit e] = [s'] from rfl, List.mem_singleton] at hx
  subst hx
  exact h

theorem reconPhase_ok (env : Env) (s0 : PState) (tr : List Action) (o : POut)
    (h : reconPhase env s0 = (tr, o)) :
    termPairs Option.none tr = true ∧ noTestActs tr ∧ saveFacts s0 tr ∧
    (match o with
     | .go s' => pfCount tr = 0 ∧ stateFacts s0 s' ∧ s'.currentStage = .schema
     | .ret s' => stateFacts s0 s' ∧ s'.currentStage = .failed ∧ pfCount tr = 1 ∧
         ∃ msg, s'.error = some msg ∧ pfHas tr msg = true
     | .thr s' _ => stateFacts s0 s' ∧ pfCount tr = 0) := by
  simp only [reconPhase] at h
  split at h
  case _ tr1 s' heq =>
    -- explore returned `.ret`: the fatal explore path already emitted save+PF
    cases h
    obtain ⟨ht, hn, hs, hret⟩ := exploreAttempts_ok env 3 1 s0 tr1 _ heq
    obtain ⟨hsf, hfail, hpf, msg, hmsg, hhas⟩ := hret
    refine ⟨termPairs_append _ rfl ht, noTestActs_append ⟨rfl, rfl, rfl⟩ hn,
      saveFacts_append saveFacts_emit hs, ?_⟩
    refine ⟨hsf, hfail, ?_, msg, hmsg, ?_⟩
    · rw [pfCount_append, hpf]
      rfl
    · rw [pfHas_append]
      simp [hhas]
  case _ tr1 s' e heq =>
    -- explore threw
    cases h
    obtain ⟨ht, hn, hs, hthr⟩ := exploreAttempts_ok env 3 1 s0 tr1 _ heq
    refine ⟨termPairs_append _ rfl ht, noTestActs_append ⟨rfl, rfl, rfl⟩ hn,
      saveFacts_append saveFacts_emit hs, ?_⟩
    have hpf1 : pfCount tr1 = 0 := hthr.2
    refine ⟨hthr.1, ?_⟩
    rw [pfCount_append, hpf1]
    rfl
  case _ tr1 r heq =>
    -- explore produced a result
    obtain ⟨ht, hn, hs, hpf0⟩ := exploreAttempts_ok env 3 1 s0 tr1 _ heq
    have hpf1 : pfCount tr1 = 0 := hpf0
    have htt : termPairs Option.none ([Action.emit (PEvent.stage_start Stage.recon)] ++ tr1) = true :=
      termPairs_append _ rfl ht
    have hnn : noTestActs ([Action.emit (PEvent.stage_start Stage.recon)] ++ tr1) :=
      noTestActs_append ⟨rfl, rfl, rfl⟩ hn
    have hss : saveFacts s0 ([Action.emit (PEvent.stage_start Stage.recon)] ++ tr1) :=
      saveFacts_append saveFacts_emit hs
    split at h
    · -- findings too short: fail
      cases h
      refine ⟨termPairs_append _ htt rfl,
        noTestActs_append hnn ⟨rfl, rfl, rfl⟩,
        saveFacts_append hss (saveFacts_pair ⟨rfl, rfl, rfl⟩), ?_⟩
      refine ⟨⟨rfl, rfl, rfl⟩, rfl, ?_, ?_⟩
      · rw [pfCount_append, pfCount_append, hpf1]
        rfl
      · refine ⟨_, rfl, ?_⟩
        rw [pfHas_append]
        simp [pfHas]
    · -- findings long enough: synthesize
      split at h
      case _ tr2 s' e heq2 =>
        -- synthesize threw
        cases h
        obtain ⟨rfl, hseq⟩ := synthAttempts_ok env 3 1 "" s0 tr2 _ heq2
        subst hseq
        refine ⟨termPairs_append _ htt rfl, noTestActs_append hnn ⟨rfl, rfl, rfl⟩,
          saveFacts_append hss (by intro x hx; simp [savedStates, List.filterMap] at hx), ?_⟩
        refine ⟨⟨rfl, rfl, rfl⟩, ?_⟩
        rw [pfCount_append, pfCount_append, hpf1]
        rfl
      case _ tr2 s' lastErr heq2 =>
        -- synthesize fell through all attempts: fail
        cases h
        obtain ⟨rfl, hseq⟩ := synthAttempts_ok env 3 1 "" s0 tr2 _ heq2
        subst hseq
        refine ⟨termPairs_append _ (termPairs_append _ htt rfl) rfl,
          noTestActs_append (noTestActs_append hnn ⟨rfl, rfl, rfl⟩) ⟨rfl, rfl, rfl⟩,
          saveFacts_append (saveFacts_append hss saveFacts_nil)
            (saveFacts_pair ⟨rfl, rfl, rfl⟩), ?_⟩
        refine ⟨⟨rfl, rfl, rfl⟩, rfl, ?_, ?_⟩
        · rw [pfCount_append, pfCount_append, pfCount_append, hpf1]
          rfl
        · refine ⟨_, rfl, ?_⟩
          rw [pfHas_append, pfHas_append, pfHas_append]
          simp [pfHas]
      case _ tr2 s' heq2 =>
        -- synthesize produced the report: transition to SCHEMA
        cases h
        have hsyn := synthAttempts_ok env 3 1 "" s0 tr2 _ heq2
        obtain ⟨rfl, hra, hma, htres, hst⟩ :
            tr2 = ([] : List Action) ∧ s'.repairAttempts = s0.repairAttempts ∧
            s'.maxRepairAttempts = s0.maxRepairAttempts ∧ s'.testResults = s0.testResults ∧
            s'.currentStage = s0.currentStage := hsyn
        refine ⟨termPairs_append _ (termPairs_append _ htt rfl) rfl,
          noTestActs_append (noTestActs_append hnn ⟨rfl, rfl, rfl⟩) ⟨rfl, rfl, rfl⟩,
          saveFacts_append (saveFacts_append hss saveFacts_nil)
            (saveFacts_pair ⟨hra, hma, htres⟩), ?_⟩
        refine ⟨?_, ⟨hra, hma, htres⟩, rfl⟩
        rw [pfCount_append, pfCount_append, pfCount_append, hpf1]
        rfl

theorem savedStates_save_cons (s : PState) (tr : List Action) :
    savedStates (Action.save s :: tr) = s :: savedStates tr := rfl

theorem savedStates_emit_cons (e : PEvent) (tr : List Action) :
    savedStates (Action.emit e :: tr) = savedStates tr := rfl

theorem savedStates_nil : savedStates [] = [] := rfl

theorem sst_single {stage : Stage} (h : stage ≠ Stage.test) :
    sstCount [Action.emit (PEvent.stage_start stage)] = 0 := by
  cases stage <;> first | rfl | exact absurd rfl h

theorem fileStage_ok (env : Env) (stage nextStage : Stage) (pa pb ca cb : Nat)
    (paths : List String) (failPrefix : String) (record : PState → PState) (s : PState)
    (tr : List Action) (o : POut)
    (hrec : ∀ st, (record st).repairAttempts = st.repairAttempts ∧
      (record st).maxRepairAttempts = st.maxRepairAttempts ∧
      (record st).testResults = st.testResults)
    (hst : stage ≠ Stage.test)
    (h : fileStage env stage nextStage pa pb ca cb paths failPrefix record s = (tr, o)) :
    termPairs Option.none tr = true ∧ noTestActs tr ∧ saveFacts s tr ∧
    (match o with
     | .go s' => pfCount tr = 0 ∧ stateFacts s s' ∧ s'.currentStage = nextStage
     | .ret s' => stateFacts s s' ∧ s'.currentStage = .failed ∧ pfCount tr = 1 ∧
         ∃ msg, s'.error = some msg ∧ pfHas tr msg = true
     | .thr s' _ => stateFacts s s' ∧ pfCount tr = 0) := by
  have h0 : noTestActs [Action.emit (PEvent.stage_start stage)] := ⟨sst_single hst, rfl, rfl⟩
  simp only [fileStage] at h
  split at h
  · -- first prompt threw
    cases h
    exact ⟨rfl, h0, saveFacts_emit, ⟨⟨rfl, rfl, rfl⟩, rfl⟩⟩
  · split at h
    · -- retry prompt threw
      cases h
      exact ⟨rfl, h0, saveFacts_emit, ⟨⟨rfl, rfl, rfl⟩, rfl⟩⟩
    · split at h
      · -- a file is still missing: fail
        cases h
        refine ⟨by simp [termPairs, isTermNT, isSaveA],
          noTestActs_append h0 ⟨rfl, rfl, rfl⟩,
          saveFacts_append saveFacts_emit (saveFacts_pair ⟨rfl, rfl, rfl⟩), ?_⟩
        refine ⟨⟨rfl, rfl, rfl⟩, rfl, rfl, ?_⟩
        exact ⟨_, rfl, by simp [pfHas_append, pfHas]⟩
      · -- files present: record outputs and advance
        cases h
        refine ⟨by simp [termPairs, isTermNT, isSaveA],
          noTestActs_append h0 ⟨rfl, rfl, rfl⟩,
          saveFacts_append saveFacts_emit
            (saveFacts_pair ⟨(hrec s).1, (hrec s).2.1, (hrec s).2.2⟩), ?_⟩
        exact ⟨rfl, ⟨(hrec s).1, (hrec s).2.1, (hrec s).2.2⟩, rfl⟩

theorem hardenPhase_ok (env : Env) (sp : Nat) (s : PState) (tr : List Action) (o : POut)
    (h : hardenPhase env sp s = (tr, o)) :
    termPairs Option.none tr = true ∧ noTestActs tr ∧ saveFacts s tr ∧ pfCount tr = 0 ∧
    (∀ s₁, o ≠ POut.ret s₁) ∧
    (match o with
     | .go s' => stateFacts s s' ∧ (s.currentStage ≠ .failed → s'.currentStage ≠ .failed)
     | .ret _ => True
     | .thr s' _ => stateFacts s s') := by
  simp only [hardenPhase] at h
  split at h
  · split at h
    · -- harden prompt threw
      cases h
      refine ⟨rfl, ⟨rfl, rfl, rfl⟩, saveFacts_emit, rfl, ?_, ⟨rfl, rfl, rfl⟩⟩
      intro s₁ hne
      cases hne
    · -- harden completed: stage := done
      cases h
      refine ⟨by simp [termPairs, isTermNT, isSaveA], ⟨rfl, rfl, rfl⟩, ?_, rfl, ?_, ?_⟩
      · intro x hx
        simp only [List.cons_append, List.nil_append, savedStates_emit_cons,
          savedStates_save_cons, savedStates_nil, List.mem_singleton] at hx
        subst hx
        exact ⟨rfl, rfl, rfl⟩
      · intro s₁ hne
        cases hne
      · exact ⟨⟨rfl, rfl, rfl⟩, fun _ => by simp⟩
  · -- currentStage ≠ harden: no-op
    cases h
    refine ⟨rfl, ⟨rfl, rfl, rfl⟩, saveFacts_nil, rfl, ?_, ⟨⟨rfl, rfl, rfl⟩, fun hne => hne⟩⟩
    intro s₁ hne
    cases hne

theorem catchRun_ok (s : PState) (e : JsError) (tr : List Action) (s' : PState)
    (h : catchRun s e = (tr, s')) :
    s'.currentStage = .failed ∧ stateFacts s s' ∧ noTestActs tr ∧
    (∀ x ∈ savedStates tr, x = s') ∧
    ∃ msg, s'.error = some msg ∧
      ((pfCount tr = 1 ∧ pfHas tr msg = true) ∨ (pfCount tr = 0 ∧ seHas tr msg = true)) := by
  simp only [catchRun] at h
  split at h <;> cases h <;>
    refine ⟨rfl, ⟨rfl, rfl, rfl⟩, ⟨rfl, rfl, rfl⟩, ?_, _, rfl, ?_⟩ <;>
    first
    | (intro x hx
       simp only [savedStates_emit_cons, savedStates_save_cons, savedStates_nil,
         List.mem_singleton] at hx
       exact hx)
    | exact Or.inr ⟨rfl, by simp [seHas]⟩
    | exact Or.inl ⟨rfl, by simp [pfHas]⟩

theorem runLoop_ok (env : Env) (m : Nat) :
    ∀ (fuel ab sp t : Nat) (s : PState) (tr : List Action) (o : LoopOut),
      s.repairAttempts ≤ m → s.maxRepairAttempts = m → s.currentStage ≠ .failed →
      runLoop env m fuel ab sp t s = (tr, o) →
      termPairs Option.none tr = true ∧
      trCount tr ≤ sstCount tr ∧
      (∀ x ∈ savedStates tr, x.repairAttempts ≤ x.maxRepairAttempts ∧
        x.maxRepairAttempts = m) ∧
      (match o with
       | .brkOut s' _ _ _ => pfCount tr = 0 ∧ s'.repairAttempts ≤ m ∧
           s'.maxRepairAttempts = m ∧ s'.currentStage ≠ .failed ∧
           s'.testResults = s.testResults ++ testReportsOf tr
       | .retOut s' => s'.repairAttempts ≤ m ∧ s'.maxRepairAttempts = m ∧
           s'.testResults = s.testResults ++ testReportsOf tr ∧
           ((s'.currentStage = .failed ∧ pfCount tr = 1 ∧
             ∃ msg, s'.error = some msg ∧ pfHas tr msg = true) ∨
            (s'.currentStage ≠ .failed ∧ pfCount tr = 0))
       | .thrOut s' _ => pfCount tr = 0 ∧ s'.repairAttempts ≤ m ∧
           s'.maxRepairAttempts = m ∧
           s'.testResults = s.testResults ++ testReportsOf tr) := by
  intro fuel
  induction fuel with
  | zero =>
    intro ab sp t s tr o hra hm hnf h
    simp only [runLoop] at h
    cases h
    exact ⟨rfl, le_refl 0, by intro x hx; simp [savedStates] at hx,
      rfl, hra, hm, hnf, by simp [testReportsOf]⟩
  | succ fuel ih =>
    intro ab sp t s tr o hra hm hnf h
    simp only [runLoop] at h
    rw [if_pos hra] at h
    by_cases hab : env.abortedAt ab = true
    · -- aborted: return state unchanged
      rw [if_pos hab] at h
      cases h
      exact ⟨rfl, le_refl 0, by intro x hx; simp [savedStates] at hx,
        hra, hm, by simp [testReportsOf], Or.inr ⟨hnf, rfl⟩⟩
    · rw [if_neg hab] at h
      rcases htc : env.testCall t with e | fo
      · -- test prompt threw
        rw [htc] at h
        dsimp only at h
        cases h
        exact ⟨rfl, by decide, by intro x hx; simp [savedStates] at hx,
          rfl, hra, hm, by simp [testReportsOf]⟩
      · rw [htc] at h
        dsimp only at h
        cases fo with
        | none =>
          -- no validated report: testResults untouched, passed = false
          dsimp only at h
          rw [if_neg (by simp)] at h
          by_cases hge : s.repairAttempts ≥ m
          · -- repair attempts exhausted: fail
            rw [if_pos hge] at h
            cases h
            refine ⟨rfl, Nat.zero_le _, ?_, ?_⟩
            · intro x hx
              simp only [List.cons_append, List.nil_append, savedStates_emit_cons,
                savedStates_save_cons, savedStates_nil, List.mem_singleton] at hx
              subst hx
              exact ⟨by simpa [hm] using hra, hm⟩
            · refine ⟨hra, hm, by simp [testReportsOf], Or.inl ⟨rfl, rfl, _, rfl, ?_⟩⟩
              simp [pfHas]
          · -- REPAIR
            rw [if_neg hge] at h
            have hlt : s.repairAttempts < m := Nat.lt_of_not_le (by simpa using hge)
            rcases hsc : env.stageCall sp with _ | e
            · -- repair ran; loop continues
              rw [hsc] at h
              dsimp only at h
              rcases hco : runLoop env m fuel (ab + 1) (sp + 1) (t + 1)
                  { s with repairAttempts := s.repairAttempts + 1,
                           currentStage := Stage.test } with ⟨trRec, outv⟩
              rw [hco] at h
              dsimp only at h
              cases h
              obtain ⟨iht, ihc, ihs, iho⟩ := ih (ab + 1) (sp + 1) (t + 1)
                  { s with repairAttempts := s.repairAttempts + 1,
                           currentStage := Stage.test } _ _
                (by simp
                    omega) hm (by simp) hco
              refine ⟨?_, ?_, ?_, ?_⟩
              · exact termPairs_append _ (termPairs_append _ rfl rfl) iht
              · rw [trCount_append, sstCount_append]
                exact Nat.add_le_add (Nat.zero_le _) ihc
              · intro x hx
                simp only [savedStates_append] at hx
                rcases List.mem_append.mp hx with hx1 | hx2
                · simp only [List.cons_append, List.nil_append, savedStates_emit_cons,
                    savedStates_save_cons, savedStates_nil, List.mem_singleton] at hx1
                  subst hx1
                  exact ⟨by simpa [hm] using (show s.repairAttempts + 1 ≤ m by omega), hm⟩
                · exact ihs x hx2
              · cases o with
                | brkOut s' ab' sp' t' =>
                  obtain ⟨hpf, h1, h2, h3, h4⟩ := iho
                  refine ⟨?_, h1, h2, h3, ?_⟩
                  · rw [pfCount_append, hpf]
                    rfl
                  · rw [testReportsOf_append, h4]
                    simp [testReportsOf]
                | retOut s' =>
                  obtain ⟨h1, h2, h3, hd⟩ := iho
                  refine ⟨h1, h2, ?_, ?_⟩
                  · rw [testReportsOf_append, h3]
                    simp [testReportsOf]
                  · rcases hd with ⟨hf, hpf, msg, hmsg, hhas⟩ | ⟨hnf2, hpf⟩
                    · refine Or.inl ⟨hf, ?_, msg, hmsg, ?_⟩
                      · rw [pfCount_append, hpf]
                        rfl
                      · rw [pfHas_append, hhas]
                        simp
                    · refine Or.inr ⟨hnf2, ?_⟩
                      rw [pfCount_append, hpf]
                      rfl
                | thrOut s' e2 =>
                  obtain ⟨hpf, h1, h2, h3⟩ := iho
                  refine ⟨?_, h1, h2, ?_⟩
                  · rw [pfCount_append, hpf]
                    rfl
                  · rw [testReportsOf_append, h3]
                    simp [testReportsOf]
            · -- repair prompt threw
              rw [hsc] at h
              dsimp only at h
              cases h
              refine ⟨rfl, Nat.zero_le _, by intro x hx; simp [savedStates] at hx,
                rfl, ?_, hm, by simp [testReportsOf]⟩
              exact (show s.repairAttempts + 1 ≤ m by omega)
        | some out =>
          dsimp only at h
          by_cases hp : out.success = true
          · -- PASS: break to HARDEN
            rw [if_pos hp] at h
            cases h
            refine ⟨rfl, le_of_eq rfl, ?_, rfl, hra, hm, by simp, ?_⟩
            · intro x hx
              simp only [List.cons_append, List.nil_append, savedStates_emit_cons,
                savedStates_save_cons, savedStates_nil, List.mem_singleton] at hx
              subst hx
              exact ⟨by simpa [hm] using hra, hm⟩
            · simp [testReportsOf]
          · rw [if_neg hp] at h
            by_cases hge : s.repairAttempts ≥ m
            · -- repair attempts exhausted: fail
              rw [if_pos hge] at h
              cases h
              refine ⟨rfl, le_of_eq rfl, ?_, ?_⟩
              · intro x hx
                simp only [List.cons_append, List.nil_append, savedStates_emit_cons,
                  savedStates_save_cons, savedStates_nil, List.mem_singleton] at hx
                subst hx
                exact ⟨by simpa [hm] using hra, hm⟩
              · refine ⟨hra, hm, by simp [testReportsOf], Or.inl ⟨rfl, rfl, _, rfl, ?_⟩⟩
                simp [pfHas]
            · -- REPAIR
              rw [if_neg hge] at h
              have hlt : s.repairAttempts < m := Nat.lt_of_not_le (by simpa using hge)
              rcases hsc : env.stageCall sp with _ | e
              · -- repair ran; loop continues
                rw [hsc] at h
                dsimp only at h
                rcases hco : runLoop env m fuel (ab + 1) (sp + 1) (t + 1)
                    { s with testResults := s.testResults ++ [testOutputToReport out],
                             repairAttempts := s.repairAttempts + 1,
                             currentStage := Stage.test } with ⟨trRec, outv⟩
                rw [hco] at h
                dsimp only at h
                cases h
                obtain ⟨iht, ihc, ihs, iho⟩ := ih (ab + 1) (sp + 1) (t + 1)
                    { s with testResults := s.testResults ++ [testOutputToReport out],
                             repairAttempts := s.repairAttempts + 1,
                             currentStage := Stage.test } _ _
                  (by simp
                      omega) hm (by simp) hco
                refine ⟨?_, ?_, ?_, ?_⟩
                · exact termPairs_append _ (termPairs_append _ rfl rfl) iht
                · rw [trCount_append, sstCount_append]
                  exact Nat.add_le_add (le_of_eq rfl) ihc
                · intro x hx
                  simp only [savedStates_append] at hx
                  rcases List.mem_append.mp hx with hx1 | hx2
                  · simp only [List.cons_append, List.nil_append, savedStates_emit_cons,
                      savedStates_save_cons, savedStates_nil, List.mem_singleton] at hx1
                    subst hx1
                    exact ⟨by simpa [hm] using (show s.repairAttempts + 1 ≤ m by omega), hm⟩
                  · exact ihs x hx2
                · cases o with
                  | brkOut s' ab' sp' t' =>
                    obtain ⟨hpf, h1, h2, h3, h4⟩ := iho
                    refine ⟨?_, h1, h2, h3, ?_⟩
                    · rw [pfCount_append, hpf]
                      rfl
                    · rw [testReportsOf_append, h4]
                      simp [testReportsOf]
                  | retOut s' =>
                    obtain ⟨h1, h2, h3, hd⟩ := iho
                    refine ⟨h1, h2, ?_, ?_⟩
                    · rw [testReportsOf_append, h3]
                      simp [testReportsOf]
                    · rcases hd with ⟨hf, hpf, msg, hmsg, hhas⟩ | ⟨hnf2, hpf⟩
                      · refine Or.inl ⟨hf, ?_, msg, hmsg, ?_⟩
                        · rw [pfCount_append, hpf]
                          rfl
                        · rw [pfHas_append, hhas]
                          simp
                      · refine Or.inr ⟨hnf2, ?_⟩
                        rw [pfCount_append, hpf]
                        rfl
                  | thrOut s' e2 =>
                    obtain ⟨hpf, h1, h2, h3⟩ := iho
                    refine ⟨?_, h1, h2, ?_⟩
                    · rw [pfCount_append, hpf]
                      rfl
                    · rw [testReportsOf_append, h3]
                      simp [testReportsOf]
              · -- repair prompt threw
                rw [hsc] at h
                dsimp only at h
                cases h
                refine ⟨rfl, le_of_eq rfl, by intro x hx; simp [savedStates] at hx,
                  rfl, ?_, hm, by simp [testReportsOf]⟩
                exact (show s.repairAttempts + 1 ≤ m by omega)


/-! ## The driver master lemma -/

theorem savedAll_append {P : PState → Prop} {t1 t2 : List Action}
    (h1 : ∀ x ∈ savedStates t1, P x) (h2 : ∀ x ∈ savedStates t2, P x) :
    ∀ x ∈ savedStates (t1 ++ t2), P x := by
  intro x hx
  rw [savedStates_append] at hx
  rcases List.mem_append.mp hx with hx1 | hx1
  · exact h1 x hx1
  · exact h2 x hx1

theorem saveFacts_bound {s0 : PState} {tr : List Action} {M : Nat} (h : saveFacts s0 tr)
    (hra : s0.repairAttempts = 0) (hm : s0.maxRepairAttempts = M) :
    ∀ x ∈ savedStates tr, x.repairAttempts ≤ x.maxRepairAttempts ∧ x.maxRepairAttempts = M := by
  intro x hx
  obtain ⟨h1, h2, _⟩ := h x hx
  refine ⟨by omega, by rw [h2, hm]⟩

/-- Master postcondition of `runPipeline`: the configured maximum is the
destructuring default `20` (not `createInitialState`\'s `5`); the repair
budget invariant holds in the final state and every persisted snapshot;
if the top-level `catch` did not run, every non-TEST terminal event is
immediately preceded by a `saveState`; `testResults` lists exactly the
reports of the `test_result` events in order; there are at most as many
`test_result` events as TEST invocations; and a `failed` final state
carries `error = some msg` where either exactly one `pipeline_failed`
with reason `msg` was emitted, or none was and a `stage_error` with
message `msg` was (the budget / output-parse catch paths). -/
theorem runPipelineModel_ok (env : Env) (targetUrl userIntent : String) (opts : PipelineOptions)
    (tr : List Action) (sf : PState) (caught : Bool)
    (h : runPipelineModel env targetUrl userIntent opts = (tr, sf, caught)) :
    sf.maxRepairAttempts = opts.maxRepairAttempts.getD 20 ∧
    sf.repairAttempts ≤ sf.maxRepairAttempts ∧
    (∀ x ∈ savedStates tr, x.repairAttempts ≤ x.maxRepairAttempts ∧
      x.maxRepairAttempts = opts.maxRepairAttempts.getD 20) ∧
    (caught = false → termPairs Option.none tr = true) ∧
    sf.testResults = testReportsOf tr ∧
    trCount tr ≤ sstCount tr ∧
    (sf.currentStage = Stage.failed →
      ∃ msg, sf.error = some msg ∧
        ((pfCount tr = 1 ∧ pfHas tr msg = true) ∨
         (pfCount tr = 0 ∧ seHas tr msg = true))) := by
  have hs0ra : (initRunState targetUrl userIntent opts).repairAttempts = 0 := rfl
  have hs0m : (initRunState targetUrl userIntent opts).maxRepairAttempts =
      opts.maxRepairAttempts.getD 20 := rfl
  have hs0t : (initRunState targetUrl userIntent opts).testResults = [] := rfl
  simp only [runPipelineModel] at h
  rcases hre : reconPhase env (initRunState targetUrl userIntent opts) with ⟨tr1, o1⟩
  rw [hre] at h
  obtain ⟨ht1, hn1, hsv1raw, ho1⟩ := reconPhase_ok env _ tr1 o1 hre
  have hsv1 := saveFacts_bound hsv1raw hs0ra hs0m
  cases o1 with
  | ret s1 =>
    dsimp only at h
    cases h
    have ho1c : stateFacts (initRunState targetUrl userIntent opts) sf ∧
        sf.currentStage = Stage.failed ∧ pfCount tr = 1 ∧
        ∃ msg, sf.error = some msg ∧ pfHas tr msg = true := ho1
    obtain ⟨⟨hra1, hm1, ht1s⟩, hfl1, hpf1, msg, hmsg, hhas⟩ := ho1c
    refine ⟨hm1.trans hs0m, by omega, hsv1, fun _ => ht1, ?_, ?_, ?_⟩
    · rw [ht1s, hs0t, hn1.2.2]
    · rw [hn1.1, hn1.2.1]
    · intro _
      exact ⟨msg, hmsg, Or.inl ⟨hpf1, hhas⟩⟩
  | thr s1 e1 =>
    dsimp only at h
    rcases hct : catchRun s1 e1 with ⟨tc, sC⟩
    rw [hct] at h
    dsimp only at h
    cases h
    have ho1c : stateFacts (initRunState targetUrl userIntent opts) s1 ∧ pfCount tr1 = 0 := ho1
    obtain ⟨⟨hra1, hm1, ht1s⟩, hpf1⟩ := ho1c
    obtain ⟨hflC, ⟨hraC, hmC, htC⟩, hnC, hsvC, msg, hmsg, hdich⟩ := catchRun_ok s1 e1 tc sf hct
    have hmCv : sf.maxRepairAttempts = opts.maxRepairAttempts.getD 20 :=
      hmC.trans (hm1.trans hs0m)
    have hraCv : sf.repairAttempts = 0 := hraC.trans (hra1.trans hs0ra)
    refine ⟨hmCv, by omega, ?_, ?_, ?_, ?_, ?_⟩
    · refine savedAll_append hsv1 ?_
      intro x hx
      rw [hsvC x hx]
      exact ⟨by omega, hmCv⟩
    · intro hc
      cases hc
    · rw [htC, ht1s, hs0t, testReportsOf_append, hn1.2.2, hnC.2.2]
      rfl
    · rw [trCount_append, sstCount_append, hn1.1, hn1.2.1, hnC.1, hnC.2.1]
    · intro _
      refine ⟨msg, hmsg, ?_⟩
      rcases hdich with ⟨hc1, hc2⟩ | ⟨hc1, hc2⟩
      · refine Or.inl ⟨by rw [pfCount_append, hpf1, hc1], ?_⟩
        rw [pfHas_append, hc2]
        simp
      · refine Or.inr ⟨by rw [pfCount_append, hpf1, hc1], ?_⟩
        rw [seHas_append, hc2]
        simp
  | go s1 =>
    dsimp only at h
    have ho1c : pfCount tr1 = 0 ∧ stateFacts (initRunState targetUrl userIntent opts) s1 ∧
        s1.currentStage = Stage.schema := ho1
    obtain ⟨hpf1, ⟨hra1raw, hm1raw, ht1raw⟩, hst1⟩ := ho1c
    have hra1 : s1.repairAttempts = 0 := hra1raw.trans hs0ra
    have hm1 : s1.maxRepairAttempts = opts.maxRepairAttempts.getD 20 := hm1raw.trans hs0m
    have hts1 : s1.testResults = [] := ht1raw.trans hs0t
    by_cases hab0 : env.abortedAt 0 = true
    · rw [if_pos hab0] at h
      cases h
      refine ⟨hm1, by omega, hsv1, fun _ => ht1, by rw [hts1, hn1.2.2],
        by rw [hn1.1, hn1.2.1], ?_⟩
      intro hf
      rw [hst1] at hf
      cases hf
    · rw [if_neg hab0] at h
      rcases hsc : schemaPhase env s1 with ⟨tr2, o2⟩
      rw [hsc] at h
      have hsc2 : fileStage env Stage.schema Stage.codegen 0 1 0 1
          [(s1.scraperDir.getD "") ++ "/schema.ts"] "schema stage did not produce "
          (fun st => { st with schemaPath := some ((s1.scraperDir.getD "") ++ "/schema.ts") })
          s1 = (tr2, o2) := hsc
      obtain ⟨ht2, hn2, hsv2raw, ho2⟩ :=
        fileStage_ok env Stage.schema Stage.codegen 0 1 0 1 _ _
          (fun st => { st with schemaPath := some ((s1.scraperDir.getD "") ++ "/schema.ts") })
          _ _ _ (fun st => ⟨rfl, rfl, rfl⟩) (by decide) hsc2
      have hsv2 := saveFacts_bound hsv2raw hra1 hm1
      have hP2t : termPairs Option.none (tr1 ++ tr2) = true :=
        termPairs_append Option.none ht1 ht2
      have hP2n : noTestActs (tr1 ++ tr2) := noTestActs_append hn1 hn2
      have hP2sv := savedAll_append hsv1 hsv2
      have hP2pf : pfCount (tr1 ++ tr2) = 0 ∨ True := Or.inr trivial
      cases o2 with
      | ret s2 =>
        dsimp only at h
        cases h
        have ho2c : stateFacts s1 sf ∧ sf.currentStage = Stage.failed ∧ pfCount tr2 = 1 ∧
            ∃ msg, sf.error = some msg ∧ pfHas tr2 msg = true := ho2
        obtain ⟨⟨hra2, hm2, ht2s⟩, hfl2, hpf2, msg, hmsg, hhas⟩ := ho2c
        refine ⟨hm2.trans hm1, by omega, hP2sv, fun _ => hP2t, ?_, ?_, ?_⟩
        · rw [ht2s, hts1, testReportsOf_append, hn1.2.2, hn2.2.2]
          rfl
        · rw [trCount_append, sstCount_append, hn1.1, hn1.2.1, hn2.1, hn2.2.1]
        · intro _
          refine ⟨msg, hmsg, Or.inl ⟨by rw [pfCount_append, hpf1, hpf2], ?_⟩⟩
          rw [pfHas_append, hhas]
          simp
      | thr s2 e2 =>
        dsimp only at h
        rcases hct : catchRun s2 e2 with ⟨tc, sC⟩
        rw [hct] at h
        dsimp only at h
        cases h
        have ho2c : stateFacts s1 s2 ∧ pfCount tr2 = 0 := ho2
        obtain ⟨⟨hra2, hm2, ht2s⟩, hpf2⟩ := ho2c
        obtain ⟨hflC, ⟨hraC, hmC, htC⟩, hnC, hsvC, msg, hmsg, hdich⟩ := catchRun_ok s2 e2 tc sf hct
        have hmCv : sf.maxRepairAttempts = opts.maxRepairAttempts.getD 20 :=
          hmC.trans (hm2.trans hm1)
        have hraCv : sf.repairAttempts = 0 := hraC.trans (hra2.trans hra1)
        refine ⟨hmCv, by omega, ?_, ?_, ?_, ?_, ?_⟩
        · refine savedAll_append hP2sv ?_
          intro x hx
          rw [hsvC x hx]
          exact ⟨by omega, hmCv⟩
        · intro hc
          cases hc
        · rw [htC, ht2s, hts1, testReportsOf_append, testReportsOf_append, hn1.2.2, hn2.2.2,
            hnC.2.2]
          rfl
        · rw [trCount_append, trCount_append, sstCount_append, sstCount_append,
            hn1.1, hn1.2.1, hn2.1, hn2.2.1, hnC.1, hnC.2.1]
        · intro _
          refine ⟨msg, hmsg, ?_⟩
          rcases hdich with ⟨hc1, hc2⟩ | ⟨hc1, hc2⟩
          · refine Or.inl ⟨by rw [pfCount_append, pfCount_append, hpf1, hpf2, hc1], ?_⟩
            rw [pfHas_append, hc2]
            simp
          · refine Or.inr ⟨by rw [pfCount_append, pfCount_append, hpf1, hpf2, hc1], ?_⟩
            rw [seHas_append, hc2]
            simp
      | go s2 =>
        dsimp only at h
        have ho2c : pfCount tr2 = 0 ∧ stateFacts s1 s2 ∧ s2.currentStage = Stage.codegen := ho2
        obtain ⟨hpf2, ⟨hra2raw, hm2raw, ht2raw⟩, hst2⟩ := ho2c
        have hra2 : s2.repairAttempts = 0 := hra2raw.trans hra1
        have hm2 : s2.maxRepairAttempts = opts.maxRepairAttempts.getD 20 := hm2raw.trans hm1
        have hts2 : s2.testResults = [] := ht2raw.trans hts1
        by_cases hab1 : env.abortedAt 1 = true
        · rw [if_pos hab1] at h
          cases h
          refine ⟨hm2, by omega, hP2sv, fun _ => hP2t, ?_, ?_, ?_⟩
          · rw [hts2, testReportsOf_append, hn1.2.2, hn2.2.2]
            rfl
          · rw [trCount_append, sstCount_append, hn1.1, hn1.2.1, hn2.1, hn2.2.1]
          · intro hf
            rw [hst2] at hf
            cases hf
        · rw [if_neg hab1] at h
          rcases hcg : codegenPhase env s2 with ⟨tr3, o3⟩
          rw [hcg] at h
          have hcg2 : fileStage env Stage.codegen Stage.test 2 3 2 3
              [(s2.scraperDir.getD "") ++ "/scraper.ts", (s2.scraperDir.getD "") ++ "/index.ts"]
              "codegen stage did not produce " (fun st => st) s2 = (tr3, o3) := hcg
          obtain ⟨ht3, hn3, hsv3raw, ho3⟩ :=
            fileStage_ok env Stage.codegen Stage.test 2 3 2 3 _ _ _ _ _ _
              (fun st => ⟨rfl, rfl, rfl⟩) (by decide) hcg2
          have hsv3 := saveFacts_bound hsv3raw hra2 hm2
          have hP3t : termPairs Option.none ((tr1 ++ tr2) ++ tr3) = true :=
            termPairs_append Option.none hP2t ht3
          have hP3n : noTestActs ((tr1 ++ tr2) ++ tr3) := noTestActs_append hP2n hn3
          have hP3sv := savedAll_append hP2sv hsv3
          cases o3 with
          | ret s3 =>
            dsimp only at h
            cases h
            have ho3c : stateFacts s2 sf ∧ sf.currentStage = Stage.failed ∧ pfCount tr3 = 1 ∧
                ∃ msg, sf.error = some msg ∧ pfHas tr3 msg = true := ho3
            obtain ⟨⟨hra3, hm3, ht3s⟩, hfl3, hpf3, msg, hmsg, hhas⟩ := ho3c
            refine ⟨hm3.trans hm2, by omega, hP3sv, fun _ => hP3t, ?_, ?_, ?_⟩
            · rw [ht3s, hts2, testReportsOf_append, testReportsOf_append, hn1.2.2, hn2.2.2,
                hn3.2.2]
              rfl
            · rw [trCount_append, trCount_append, sstCount_append, sstCount_append,
                hn1.1, hn1.2.1, hn2.1, hn2.2.1, hn3.1, hn3.2.1]
            · intro _
              refine ⟨msg, hmsg,
                Or.inl ⟨by rw [pfCount_append, pfCount_append, hpf1, hpf2, hpf3], ?_⟩⟩
              rw [pfHas_append, hhas]
              simp
          | thr s3 e3 =>
            dsimp only at h
            rcases hct : catchRun s3 e3 with ⟨tc, sC⟩
            rw [hct] at h
            dsimp only at h
            cases h
            have ho3c : stateFacts s2 s3 ∧ pfCount tr3 = 0 := ho3
            obtain ⟨⟨hra3, hm3, ht3s⟩, hpf3⟩ := ho3c
            obtain ⟨hflC, ⟨hraC, hmC, htC⟩, hnC, hsvC, msg, hmsg, hdich⟩ :=
              catchRun_ok s3 e3 tc sf hct
            have hmCv : sf.maxRepairAttempts = opts.maxRepairAttempts.getD 20 :=
              hmC.trans (hm3.trans hm2)
            have hraCv : sf.repairAttempts = 0 := hraC.trans (hra3.trans hra2)
            refine ⟨hmCv, by omega, ?_, ?_, ?_, ?_, ?_⟩
            · refine savedAll_append hP3sv ?_
              intro x hx
              rw [hsvC x hx]
              exact ⟨by omega, hmCv⟩
            · intro hc
              cases hc
            · rw [htC, ht3s, hts2, testReportsOf_append, testReportsOf_append,
                testReportsOf_append, hn1.2.2, hn2.2.2, hn3.2.2, hnC.2.2]
              rfl
            · rw [trCount_append, trCount_append, trCount_append, sstCount_append,
                sstCount_append, sstCount_append, hn1.1, hn1.2.1, hn2.1, hn2.2.1, hn3.1,
                hn3.2.1, hnC.1, hnC.2.1]
            · intro _
              refine ⟨msg, hmsg, ?_⟩
              rcases hdich with ⟨hc1, hc2⟩ | ⟨hc1, hc2⟩
              · refine Or.inl ⟨by rw [pfCount_append, pfCount_append, pfCount_append,
                  hpf1, hpf2, hpf3, hc1], ?_⟩
                rw [pfHas_append, hc2]
                simp
              · refine Or.inr ⟨by rw [pfCount_append, pfCount_append, pfCount_append,
                  hpf1, hpf2, hpf3, hc1], ?_⟩
                rw [seHas_append, hc2]
                simp
          | go s3 =>
            dsimp only at h
            have ho3c : pfCount tr3 = 0 ∧ stateFacts s2 s3 ∧ s3.currentStage = Stage.test := ho3
            obtain ⟨hpf3, ⟨hra3raw, hm3raw, ht3raw⟩, hst3⟩ := ho3c
            have hra3 : s3.repairAttempts = 0 := hra3raw.trans hra2
            have hm3 : s3.maxRepairAttempts = opts.maxRepairAttempts.getD 20 := hm3raw.trans hm2
            have hts3 : s3.testResults = [] := ht3raw.trans hts2
            by_cases hab2 : env.abortedAt 2 = true
            · rw [if_pos hab2] at h
              cases h
              refine ⟨hm3, by omega, hP3sv, fun _ => hP3t, ?_, ?_, ?_⟩
              · rw [hts3, testReportsOf_append, testReportsOf_append, hn1.2.2, hn2.2.2,
                  hn3.2.2]
                rfl
              · rw [trCount_append, trCount_append, sstCount_append, sstCount_append,
                  hn1.1, hn1.2.1, hn2.1, hn2.2.1, hn3.1, hn3.2.1]
              · intro hf
                rw [hst3] at hf
                cases hf
            · rw [if_neg hab2] at h
              rcases hlp : runLoop env (opts.maxRepairAttempts.getD 20)
                  (opts.maxRepairAttempts.getD 20 + 1) 3 4 0 s3 with ⟨tr4, o4⟩
              rw [hlp] at h
              obtain ⟨ht4, hcnt4, hsv4, ho4⟩ :=
                runLoop_ok env (opts.maxRepairAttempts.getD 20)
                  (opts.maxRepairAttempts.getD 20 + 1) 3 4 0 s3 tr4 o4
                  (by omega) hm3 (by rw [hst3]; decide) hlp
              cases o4 with
              | retOut s4 =>
                dsimp only at h
                cases h
                have ho4c : sf.repairAttempts ≤ opts.maxRepairAttempts.getD 20 ∧
                    sf.maxRepairAttempts = opts.maxRepairAttempts.getD 20 ∧
                    sf.testResults = s3.testResults ++ testReportsOf tr4 ∧
                    ((sf.currentStage = Stage.failed ∧ pfCount tr4 = 1 ∧
                      ∃ msg, sf.error = some msg ∧ pfHas tr4 msg = true) ∨
                     (sf.currentStage ≠ Stage.failed ∧ pfCount tr4 = 0)) := ho4
                obtain ⟨hra4, hm4, ht4s, hdich4⟩ := ho4c
                refine ⟨hm4, by omega, savedAll_append hP3sv hsv4,
                  fun _ => termPairs_append Option.none hP3t ht4, ?_, ?_, ?_⟩
                · rw [ht4s, hts3, testReportsOf_append, testReportsOf_append,
                    testReportsOf_append, hn1.2.2, hn2.2.2, hn3.2.2]
                  simp
                · rw [trCount_append, trCount_append, trCount_append, sstCount_append,
                    sstCount_append, sstCount_append, hn1.1, hn1.2.1, hn2.1, hn2.2.1, hn3.1,
                    hn3.2.1]
                  omega
                · intro hf
                  rcases hdich4 with ⟨_, hc1, msg, hmsg, hhas⟩ | ⟨hnfl, _⟩
                  · refine ⟨msg, hmsg, Or.inl ⟨by rw [pfCount_append, pfCount_append,
                      pfCount_append, hpf1, hpf2, hpf3, hc1], ?_⟩⟩
                    rw [pfHas_append, hhas]
                    simp
                  · exact absurd hf hnfl
              | thrOut s4 e4 =>
                dsimp only at h
                rcases hct : catchRun s4 e4 with ⟨tc, sC⟩
                rw [hct] at h
                dsimp only at h
                cases h
                have ho4c : pfCount tr4 = 0 ∧
                    s4.repairAttempts ≤ opts.maxRepairAttempts.getD 20 ∧
                    s4.maxRepairAttempts = opts.maxRepairAttempts.getD 20 ∧
                    s4.testResults = s3.testResults ++ testReportsOf tr4 := ho4
                obtain ⟨hpf4, hra4, hm4, ht4s⟩ := ho4c
                obtain ⟨hflC, ⟨hraC, hmC, htC⟩, hnC, hsvC, msg, hmsg, hdich⟩ :=
                  catchRun_ok s4 e4 tc sf hct
                have hmCv : sf.maxRepairAttempts = opts.maxRepairAttempts.getD 20 :=
                  hmC.trans hm4
                have hraCv : sf.repairAttempts ≤ opts.maxRepairAttempts.getD 20 := by
                  rw [hraC]
                  exact hra4
                refine ⟨hmCv, by omega, ?_, ?_, ?_, ?_, ?_⟩
                · refine savedAll_append (savedAll_append hP3sv hsv4) ?_
                  intro x hx
                  rw [hsvC x hx]
                  exact ⟨by omega, hmCv⟩
                · intro hc
                  cases hc
                · rw [htC, ht4s, hts3, testReportsOf_append, testReportsOf_append,
                    testReportsOf_append, testReportsOf_append, hn1.2.2, hn2.2.2, hn3.2.2,
                    hnC.2.2]
                  simp
                · rw [trCount_append, trCount_append, trCount_append, trCount_append,
                    sstCount_append, sstCount_append, sstCount_append, sstCount_append,
                    hn1.1, hn1.2.1, hn2.1, hn2.2.1, hn3.1, hn3.2.1, hnC.1, hnC.2.1]
                  omega
                · intro _
                  refine ⟨msg, hmsg, ?_⟩
                  rcases hdich with ⟨hc1, hc2⟩ | ⟨hc1, hc2⟩
                  · refine Or.inl ⟨by rw [pfCount_append, pfCount_append, pfCount_append,
                      pfCount_append, hpf1, hpf2, hpf3, hpf4, hc1], ?_⟩
                    rw [pfHas_append, hc2]
                    simp
                  · refine Or.inr ⟨by rw [pfCount_append, pfCount_append, pfCount_append,
                      pfCount_append, hpf1, hpf2, hpf3, hpf4, hc1], ?_⟩
                    rw [seHas_append, hc2]
                    simp
              | brkOut s4 ab4 sp4 t4 =>
                dsimp only at h
                have ho4c : pfCount tr4 = 0 ∧
                    s4.repairAttempts ≤ opts.maxRepairAttempts.getD 20 ∧
                    s4.maxRepairAttempts = opts.maxRepairAttempts.getD 20 ∧
                    s4.currentStage ≠ Stage.failed ∧
                    s4.testResults = s3.testResults ++ testReportsOf tr4 := ho4
                obtain ⟨hpf4, hra4, hm4, hnf4, ht4s⟩ := ho4c
                have hP4t : termPairs Option.none (((tr1 ++ tr2) ++ tr3) ++ tr4) = true :=
                  termPairs_append Option.none hP3t ht4
                have hP4sv := savedAll_append hP3sv hsv4
                have hts4 : s4.testResults = testReportsOf tr4 := by
                  rw [ht4s, hts3]
                  simp
                by_cases habL : env.abortedAt ab4 = true
                · rw [if_pos habL] at h
                  cases h
                  refine ⟨hm4, by omega, hP4sv, fun _ => hP4t, ?_, ?_, ?_⟩
                  · rw [hts4, testReportsOf_append, testReportsOf_append,
                      testReportsOf_append, hn1.2.2, hn2.2.2, hn3.2.2]
                    simp
                  · rw [trCount_append, trCount_append, trCount_append, sstCount_append,
                      sstCount_append, sstCount_append, hn1.1, hn1.2.1, hn2.1, hn2.2.1,
                      hn3.1, hn3.2.1]
                    omega
                  · intro hf
                    exact absurd hf hnf4
                · rw [if_neg habL] at h
                  rcases hhd : hardenPhase env sp4 s4 with ⟨tr5, o5⟩
                  rw [hhd] at h
                  obtain ⟨ht5, hn5, hsv5raw, hpf5, hnoret, ho5⟩ :=
                    hardenPhase_ok env sp4 s4 tr5 o5 hhd
                  have hsv5 : ∀ x ∈ savedStates tr5,
                      x.repairAttempts ≤ x.maxRepairAttempts ∧
                      x.maxRepairAttempts = opts.maxRepairAttempts.getD 20 := by
                    intro x hx
                    obtain ⟨e1, e2, _⟩ := hsv5raw x hx
                    refine ⟨by omega, by rw [e2, hm4]⟩
                  cases o5 with
                  | ret s5 =>
                    exact absurd rfl (hnoret s5)
                  | thr s5 e5 =>
                    dsimp only at h
                    rcases hct : catchRun s5 e5 with ⟨tc, sC⟩
                    rw [hct] at h
                    dsimp only at h
                    cases h
                    have ho5c : stateFacts s4 s5 := ho5
                    obtain ⟨hra5, hm5, ht5s⟩ := ho5c
                    obtain ⟨hflC, ⟨hraC, hmC, htC⟩, hnC, hsvC, msg, hmsg, hdich⟩ :=
                      catchRun_ok s5 e5 tc sf hct
                    have hmCv : sf.maxRepairAttempts = opts.maxRepairAttempts.getD 20 :=
                      hmC.trans (hm5.trans hm4)
                    have hraCv : sf.repairAttempts ≤ opts.maxRepairAttempts.getD 20 := by
                      rw [hraC, hra5]
                      exact hra4
                    refine ⟨hmCv, by omega, ?_, ?_, ?_, ?_, ?_⟩
                    · refine savedAll_append (savedAll_append hP4sv hsv5) ?_
                      intro x hx
                      rw [hsvC x hx]
                      exact ⟨by omega, hmCv⟩
                    · intro hc
                      cases hc
                    · rw [htC, ht5s, hts4, testReportsOf_append, testReportsOf_append,
                        testReportsOf_append, testReportsOf_append, testReportsOf_append,
                        hn1.2.2, hn2.2.2, hn3.2.2, hn5.2.2, hnC.2.2]
                      simp
                    · rw [trCount_append, trCount_append, trCount_append, trCount_append,
                        trCount_append, sstCount_append, sstCount_append, sstCount_append,
                        sstCount_append, sstCount_append, hn1.1, hn1.2.1, hn2.1, hn2.2.1,
                        hn3.1, hn3.2.1, hn5.1, hn5.2.1, hnC.1, hnC.2.1]
                      omega
                    · intro _
                      refine ⟨msg, hmsg, ?_⟩
                      rcases hdich with ⟨hc1, hc2⟩ | ⟨hc1, hc2⟩
                      · refine Or.inl ⟨by rw [pfCount_append, pfCount_append, pfCount_append,
                          pfCount_append, pfCount_append, hpf1, hpf2, hpf3, hpf4, hpf5,
                          hc1], ?_⟩
                        rw [pfHas_append, hc2]
                        simp
                      · refine Or.inr ⟨by rw [pfCount_append, pfCount_append, pfCount_append,
                          pfCount_append, pfCount_append, hpf1, hpf2, hpf3, hpf4, hpf5,
                          hc1], ?_⟩
                        rw [seHas_append, hc2]
                        simp
                  | go s5 =>
                    dsimp only at h
                    cases h
                    have ho5c : stateFacts s4 sf ∧
                        (s4.currentStage ≠ Stage.failed → sf.currentStage ≠ Stage.failed) :=
                      ho5
                    obtain ⟨⟨hra5, hm5, ht5s⟩, hnf5⟩ := ho5c
                    refine ⟨hm5.trans hm4, by omega,
                      savedAll_append hP4sv hsv5,
                      fun _ => termPairs_append Option.none hP4t ht5, ?_, ?_, ?_⟩
                    · rw [ht5s, hts4, testReportsOf_append, testReportsOf_append,
                        testReportsOf_append, testReportsOf_append, hn1.2.2, hn2.2.2,
                        hn3.2.2, hn5.2.2]
                      simp
                    · rw [trCount_append, trCount_append, trCount_append, trCount_append,
                        sstCount_append, sstCount_append, sstCount_append, sstCount_append,
                        hn1.1, hn1.2.1, hn2.1, hn2.2.1, hn3.1, hn3.2.1, hn5.1, hn5.2.1]
                      omega
                    · intro hf
                      exact absurd hf (hnf5 hnf4)


/-! ## Claims C1 to C4 and C8 — the driver -/

/-- C1 (counterexample): a budget overrun during CODEGEN leaves the final
state `failed`, yet NO `pipeline_failed` event is emitted (the catch emits
`stage_error` instead); and a plain exception with an empty message leaves
`state.error = some ""`, which is not a non-empty string. -/
theorem C1_counterexample :
    ((runPipelineModel envBudget "u" "i" opts0).2.1.currentStage = Stage.failed ∧
     pfCount (runPipelineModel envBudget "u" "i" opts0).1 = 0) ∧
    ((runPipelineModel envEmptyErr "u" "i" opts0).2.1.currentStage = Stage.failed ∧
     (runPipelineModel envEmptyErr "u" "i" opts0).2.1.error = some "") :=
  ⟨⟨rfl, rfl⟩, ⟨rfl, rfl⟩⟩

/-- C1 (amended): a `failed` final state always carries `error = some msg`
(possibly the empty string), and either exactly one `pipeline_failed` event
with reason `msg` was emitted, or none was and a `stage_error` carrying
`msg` was (the budget and output-parse catch paths). -/
theorem C1_failed_error (env : Env) (targetUrl userIntent : String) (opts : PipelineOptions)
    (tr : List Action) (sf : PState) (caught : Bool)
    (h : runPipelineModel env targetUrl userIntent opts = (tr, sf, caught))
    (hf : sf.currentStage = Stage.failed) :
    ∃ msg, sf.error = some msg ∧
      ((pfCount tr = 1 ∧ pfHas tr msg = true) ∨ (pfCount tr = 0 ∧ seHas tr msg = true)) :=
  (runPipelineModel_ok env targetUrl userIntent opts tr sf caught h).2.2.2.2.2.2 hf

theorem C1_failed_error_witness :
    ∃ msg, (runPipelineModel envBudget "u" "i" opts0).2.1.error = some msg ∧
      ((pfCount (runPipelineModel envBudget "u" "i" opts0).1 = 1 ∧
        pfHas (runPipelineModel envBudget "u" "i" opts0).1 msg = true) ∨
       (pfCount (runPipelineModel envBudget "u" "i" opts0).1 = 0 ∧
        seHas (runPipelineModel envBudget "u" "i" opts0).1 msg = true)) :=
  C1_failed_error envBudget "u" "i" opts0 _ _ _ rfl rfl

/-- C2: the repair budget invariant `repairAttempts ≤ maxRepairAttempts`
holds in the state `runPipeline` returns and in every state it persists
via `saveState`, for every environment and positive `maxRepairAttempts`
option. -/
theorem C2_repair_bound (env : Env) (targetUrl userIntent : String) (opts : PipelineOptions)
    (tr : List Action) (sf : PState) (caught : Bool)
    (hpos : 0 < opts.maxRepairAttempts.getD 20)
    (h : runPipelineModel env targetUrl userIntent opts = (tr, sf, caught)) :
    sf.repairAttempts ≤ sf.maxRepairAttempts ∧
    ∀ x ∈ savedStates tr, x.repairAttempts ≤ x.maxRepairAttempts := by
  obtain ⟨-, h2, h3, -, -, -, -⟩ :=
    runPipelineModel_ok env targetUrl userIntent opts tr sf caught h
  exact ⟨h2, fun x hx => (h3 x hx).1⟩

theorem C2_repair_bound_witness :
    0 < opts0.maxRepairAttempts.getD 20 ∧
    ((runPipelineModel envNoRep "u" "i" opts0).2.1.repairAttempts ≤
      (runPipelineModel envNoRep "u" "i" opts0).2.1.maxRepairAttempts ∧
     ∀ x ∈ savedStates (runPipelineModel envNoRep "u" "i" opts0).1,
       x.repairAttempts ≤ x.maxRepairAttempts) :=
  ⟨by decide, C2_repair_bound envNoRep "u" "i" opts0 _ _ _ (by decide) rfl⟩

/-- C3 (counterexample): with `maxRepairAttempts` omitted from the options,
the state returned by a successful run has `maxRepairAttempts = 20`, not
`5`: the parameter default of `runPipeline` overrides the field default
that `createInitialState` filled in. -/
theorem C3_counterexample :
    opts0.maxRepairAttempts = Option.none ∧
    (runPipelineModel envBase "u" "i" opts0).2.1.maxRepairAttempts = 20 ∧
    ¬ (runPipelineModel envBase "u" "i" opts0).2.1.maxRepairAttempts = 5 :=
  ⟨rfl, rfl, by decide⟩

/-- C3 (amended): when the options omit `maxRepairAttempts`, the returned
state has `maxRepairAttempts = 20` (the destructuring default in
`runPipeline`), even though `createInitialState` itself fills the field
with `5` before the driver overwrites it. -/
theorem C3_default_max (env : Env) (targetUrl userIntent : String) (opts : PipelineOptions)
    (tr : List Action) (sf : PState) (caught : Bool)
    (hnone : opts.maxRepairAttempts = Option.none)
    (h : runPipelineModel env targetUrl userIntent opts = (tr, sf, caught)) :
    sf.maxRepairAttempts = 20 ∧
    (createInitialState (slugify userIntent) targetUrl userIntent "w").maxRepairAttempts = 5 := by
  have h1 := (runPipelineModel_ok env targetUrl userIntent opts tr sf caught h).1
  rw [hnone] at h1
  exact ⟨h1, rfl⟩

theorem C3_default_max_witness :
    opts0.maxRepairAttempts = Option.none ∧
    ((runPipelineModel envBase "u" "i" opts0).2.1.maxRepairAttempts = 20 ∧
     (createInitialState (slugify "i") "u" "i" "w").maxRepairAttempts = 5) :=
  ⟨rfl, C3_default_max envBase "u" "i" opts0 _ _ _ rfl rfl⟩

/-- C4 (counterexample): in a fully successful run the transition out of
TEST emits `stage_complete` for `test` immediately after the `test_result`
event, and the corresponding `saveState` happens only AFTER it (when the
loop breaks into HARDEN) — so under the reading of the claim, in which the
terminal event of EVERY stage transition must be preceded by the save, the
trace fails — yet the run terminated normally (`done`, no catch). -/
theorem C4_counterexample :
    termPairsClaim Option.none (runPipelineModel envBase "u" "i" opts0).1 = false ∧
    (runPipelineModel envBase "u" "i" opts0).2.2 = false ∧
    (runPipelineModel envBase "u" "i" opts0).2.1.currentStage = Stage.done :=
  ⟨rfl, rfl, rfl⟩

/-- C4 (amended): whenever the top-level catch does not run, every
non-TEST terminal event (`stage_complete` of a stage other than `test`,
`stage_error`, `pipeline_failed`) is immediately preceded by a `saveState`
write; the `stage_complete` that closes TEST is the exception — it is
emitted before the corresponding save. -/
theorem C4_save_before_terminal (env : Env) (targetUrl userIntent : String)
    (opts : PipelineOptions) (tr : List Action) (sf : PState)
    (h : runPipelineModel env targetUrl userIntent opts = (tr, sf, false)) :
    termPairs Option.none tr = true :=
  (runPipelineModel_ok env targetUrl userIntent opts tr sf false h).2.2.2.1 rfl

theorem C4_save_before_terminal_witness :
    termPairs Option.none (runPipelineModel envBase "u" "i" opts0).1 = true :=
  C4_save_before_terminal envBase "u" "i" opts0 _ _ rfl

/-- C8 (counterexample): when the first TEST invocation produces no
validated report (the test stage returns without `finalOutput`), the run
makes two TEST invocations but `testResults` keeps a single entry: indices
do NOT correspond one-to-one to TEST invocations. -/
theorem C8_counterexample :
    sstCount (runPipelineModel envNoRep "u" "i" opts0).1 = 2 ∧
    (runPipelineModel envNoRep "u" "i" opts0).2.1.testResults.length = 1 :=
  ⟨rfl, rfl⟩

/-- C8 (amended): `testResults` lists exactly the reports carried by the
`test_result` events, in emission order, and there are at most as many
`test_result` events as TEST invocations (`stage_start` events for
`test`): an invocation without a validated report appends nothing. -/
theorem C8_test_results (env : Env) (targetUrl userIntent : String) (opts : PipelineOptions)
    (tr : List Action) (sf : PState) (caught : Bool)
    (h : runPipelineModel env targetUrl userIntent opts = (tr, sf, caught)) :
    sf.testResults = testReportsOf tr ∧ trCount tr ≤ sstCount tr := by
  obtain ⟨-, -, -, -, h5, h6, -⟩ :=
    runPipelineModel_ok env targetUrl userIntent opts tr sf caught h
  exact ⟨h5, h6⟩

theorem C8_test_results_witness :
    (runPipelineModel envNoRep "u" "i" opts0).2.1.testResults =
      testReportsOf (runPipelineModel envNoRep "u" "i" opts0).1 ∧
    trCount (runPipelineModel envNoRep "u" "i" opts0).1 ≤
      sstCount (runPipelineModel envNoRep "u" "i" opts0).1 :=
  C8_test_results envNoRep "u" "i" opts0 _ _ _ rfl

end Noctua
